import Mathlib

/-!
# Banner compositor: layer model, tinting and hit-testing

A shallow embedding of `src/script.js`.  Rasters are lists of RGBA pixels,
`state.layers` is a list of layer records, and every event handler is a
function from the part of the application state it reads to the part it writes.
-/

namespace BannerCompile

/-! ## Rasters and colours -/

/-- One RGBA quadruple of an `ImageData` buffer (`data[i] .. data[i + 3]`). -/
structure Pixel where
  r : Nat
  g : Nat
  b : Nat
  a : Nat
deriving DecidableEq, Repr

/-- Every channel of the pixel is a byte, as in a `Uint8ClampedArray`. -/
def Pixel.IsByte (p : Pixel) : Prop :=
  p.r ≤ 255 ∧ p.g ≤ 255 ∧ p.b ≤ 255 ∧ p.a ≤ 255

instance (p : Pixel) : Decidable p.IsByte := by
  unfold Pixel.IsByte
  infer_instance

/-- A decoded raster: its dimensions and its pixels in row-major order, which is
what `getImageData(0, 0, width, height)` reads back after `drawImage(img, 0, 0)`
onto a canvas of the same size. -/
structure Image where
  width : Nat
  height : Nat
  data : List Pixel
deriving DecidableEq, Repr

/-- The object returned by `hexToRgb`. -/
structure Rgb where
  r : Nat
  g : Nat
  b : Nat
deriving DecidableEq, Repr

/-- The character class `[a-f\d]` under the `i` flag. -/
def isHexDigit (c : Char) : Bool :=
  (48 ≤ c.toNat && c.toNat ≤ 57) || (97 ≤ c.toNat && c.toNat ≤ 102) ||
    (65 ≤ c.toNat && c.toNat ≤ 70)

/-- The value `parseInt` gives one digit in radix 16. -/
def hexDigitValue (c : Char) : Nat :=
  if 48 ≤ c.toNat ∧ c.toNat ≤ 57 then c.toNat - 48
  else if 97 ≤ c.toNat ∧ c.toNat ≤ 102 then c.toNat - 97 + 10
  else c.toNat - 65 + 10

/-- The function `parseInt(s, 16)` on a run of hexadecimal digits. -/
def parseInt16 (s : List Char) : Nat :=
  s.foldl (fun acc c => acc * 16 + hexDigitValue c) 0

/-- The part `([a-f\d]{2})([a-f\d]{2})([a-f\d]{2})$` of the pattern: the three
captured groups when the remaining input is exactly six hexadecimal digits. -/
def matchSixDigits : List Char → Option (List Char × List Char × List Char)
  | [c1, c2, c3, c4, c5, c6] =>
    if isHexDigit c1 && isHexDigit c2 && isHexDigit c3 && isHexDigit c4 &&
        isHexDigit c5 && isHexDigit c6 then
      some ([c1, c2], [c3, c4], [c5, c6])
    else none
  | _ => none

/-- The call `/^#?([a-f\d]{2})([a-f\d]{2})([a-f\d]{2})$/i.exec(hex)`: the greedy
`#?` first consumes a leading `#`, and the matcher backtracks to the empty
alternative when the rest does not match. -/
def execHexPattern (hex : List Char) : Option (List Char × List Char × List Char) :=
  match hex with
  | '#' :: rest =>
    match matchSixDigits rest with
    | some groups => some groups
    | none => matchSixDigits hex
  | _ => matchSixDigits hex

/-- The function `hexToRgb` (script.js 578-585). -/
def hexToRgb (hex : String) : Rgb :=
  match execHexPattern hex.data with
  | some (g1, g2, g3) => { r := parseInt16 g1, g := parseInt16 g2, b := parseInt16 g3 }
  | none => { r := 255, g := 255, b := 255 }

/-- The conversion applied when a number is stored into a `Uint8ClampedArray`,
for the non-negative rational `num / den`: round to the nearest integer, a tie
going to the even neighbour, then clamp at 255. -/
def toUint8Clamp (num den : Nat) : Nat :=
  let f := num / den
  let rest := num % den
  let rounded :=
    if 2 * rest < den then f
    else if den < 2 * rest then f + 1
    else if f % 2 = 0 then f else f + 1
  min rounded 255

/-- The value stored by `data[i] = targetColor.r * brightness` with
`brightness = (data[i] + data[i + 1] + data[i + 2]) / 3 / 255`.

The source evaluates the quotient in double precision.  The exact value
`target * (R + G + B) / 765` is never a tie: `2 * target * (R + G + B)` is even
and `765 * (2 * k + 1)` is odd, so it stays at least `1 / 1530` away from every
rounding boundary and the stored byte is the rounding of the exact quotient. -/
def shadeChannel (target : Nat) (p : Pixel) : Nat :=
  toUint8Clamp (target * (p.r + p.g + p.b)) (3 * 255)

/-- One iteration of the loop of `applyColorWithShading` (script.js 563-572). -/
def shadePixel (targetColor : Rgb) (p : Pixel) : Pixel :=
  if p.a = 0 then p
  else
    { r := shadeChannel targetColor.r p
      g := shadeChannel targetColor.g p
      b := shadeChannel targetColor.b p
      a := p.a }

/-- The function `applyColorWithShading` (script.js 550-576), as the ImageData
it writes with `putImageData` onto the canvas it returns: the size of `img` and
the recoloured pixels.  What that canvas then holds is `canvasOf` of it; the two
agree on every alpha and on every opaque pixel. -/
def applyColorWithShading (img : Image) (hexColor : String) : Image :=
  { width := img.width
    height := img.height
    data := img.data.map (shadePixel (hexToRgb hexColor)) }

/-- One colour channel as a canvas holds it after `putImageData` wrote the value
`c` with alpha `a`: the backing store keeps the channel premultiplied by alpha in
8 bits, `c * a / 255` rounded, and drawing or reading the canvas divides alpha
out again, `stored * 255 / a` rounded.  With alpha 255 the channel is held as
written, with alpha 0 it is held as 0. -/
def canvasChannel (c a : Nat) : Nat :=
  if a = 0 then 0 else toUint8Clamp (toUint8Clamp (c * a) 255 * 255) a

/-- The pixel a canvas holds after `putImageData` wrote `p`. -/
def canvasHolds (p : Pixel) : Pixel :=
  { r := canvasChannel p.r p.a
    g := canvasChannel p.g p.a
    b := canvasChannel p.b p.a
    a := p.a }

/-- The pixels of a canvas of the size of `imageData` after
`putImageData(imageData, 0, 0)`: the canvas `applyColorWithShading` returns. -/
def canvasOf (imageData : Image) : Image :=
  { width := imageData.width
    height := imageData.height
    data := imageData.data.map canvasHolds }

/-! ## Colour strings, as the specification words them -/

/-- The digit a hexadecimal character denotes, read off the digit table
(letters in either case). -/
def hexValueOf (c : Char) : Nat :=
  "0123456789abcdef".data.indexOf c.toLower

/-- The byte a pair of hexadecimal digits denotes. -/
def byteOfPair (hi lo : Char) : Nat :=
  16 * hexValueOf hi + hexValueOf lo

/-- The channel value `out` is the byte nearest to `target` times the brightness
(R+G+B)/(3·255) of the pixel `src`, and lies between 0 and `target`. -/
def IsShade (target : Nat) (src : Pixel) (out : Nat) : Prop :=
  |((out : ℕ) : ℚ) - (target : ℚ) * (((src.r + src.g + src.b : ℕ) : ℚ) / (3 * 255))| < 1 / 2 ∧
    out ≤ target

/-- A string that is an optional `#` followed by exactly six hexadecimal
digits. -/
def IsHexColor (s : String) : Prop :=
  ∃ d1 d2 d3 d4 d5 d6 : Char,
    (isHexDigit d1 = true ∧ isHexDigit d2 = true ∧ isHexDigit d3 = true ∧
      isHexDigit d4 = true ∧ isHexDigit d5 = true ∧ isHexDigit d6 = true) ∧
    (s.data = [d1, d2, d3, d4, d5, d6] ∨ s.data = '#' :: [d1, d2, d3, d4, d5, d6])

/-! ## Numbers -/

/-- How many low bits an integer `n ≥ 2 ^ 53` has beyond the 53 bits of a double's
significand (`fuel` bounds the search; 1024 covers every finite double). -/
def excessBits : Nat → Nat → Nat
  | 0, _ => 0
  | fuel + 1, n => if n < 9007199254740992 then 0 else excessBits fuel (n / 2) + 1

/-- The natural number `n` rounded to 53 significant bits, to nearest with a tie
going to the even significand. -/
def roundBinary (n : Nat) : Nat :=
  let e := excessBits 1024 n
  let q := n / 2 ^ e
  let rest := n % 2 ^ e
  let q :=
    if 2 * rest < 2 ^ e then q
    else if 2 ^ e < 2 * rest then q + 1
    else if q % 2 = 0 then q else q + 1
  q * 2 ^ e

/-- The Number that an arithmetic operation returns when its exact result is the
integer `v`: the nearest double.  Integers up to 2 ^ 53 = 9007199254740992 in
magnitude are doubles themselves; beyond, doubles are spaced 2, 4, 8, ... apart.
(Magnitudes from 2 ^ 1024 on, where a double is `Infinity`, are not covered.) -/
def toDouble (v : Int) : Int :=
  if v.natAbs ≤ 9007199254740992 then v
  else if 0 ≤ v then (roundBinary v.natAbs : Int)
  else -(roundBinary v.natAbs : Int)

/-! ## Layers -/

/-- The `type` of a layer: one of the four strings the application creates. -/
inductive LayerType where
  | base
  | banner
  | text
  | custom
deriving DecidableEq, Repr

/-- The value of a layer's `color` property: absent (`undefined`, as on base and
custom layers), `null` (the banner before a colour is picked) or a string. -/
inductive Color where
  | undefined
  | null
  | str (s : String)
deriving DecidableEq, Repr

/-- A layer object of `state.layers`.  `data` is `none` while the property is
`null`; `text` and `spacing` are `none` on the layers that lack the property.
`x`, `y` and `z` are Numbers with an integer value, which is what `parseInt`,
`Math.floor` and the handlers store; arithmetic on them goes through `toDouble`. -/
structure Layer where
  id : Nat
  name : String
  type : LayerType
  visible : Bool
  data : Option Image
  x : Int
  y : Int
  z : Int
  color : Color
  text : Option String
  spacing : Option Int
deriving DecidableEq, Repr

/-- The object `state.letters`: glyph images keyed by lower-cased file name. -/
abbrev GlyphSet := List (String × Image)

/-- The function `addDefaultLayers` (script.js 101-108). -/
def addDefaultLayers : List Layer :=
  [ { id := 1, name := "Base", type := .base, visible := true, data := none,
      x := 0, y := 0, z := 1, color := .undefined, text := none, spacing := none },
    { id := 2, name := "Banner", type := .banner, visible := true, data := none,
      x := 0, y := 0, z := 2, color := .null, text := none, spacing := none },
    { id := 3, name := "Text", type := .text, visible := true, data := none,
      x := 0, y := 0, z := 3, color := .str "#ffffff", text := some "", spacing := some 0 } ]

/-! ## Ordering by z -/

/-- The method `Array.prototype.sort(cmp)`: a stable sort that puts `a` before
`b` when `cmp(a, b) ≤ 0`.  Insertion from the right is such a sort, and for a
consistent comparator every stable sort returns the same array. -/
def jsSort (cmp : Layer → Layer → Int) (layers : List Layer) : List Layer :=
  layers.insertionSort (fun a b => cmp a b ≤ 0)

/-- The function `sortLayers` (script.js 388-390), the new content of
`state.layers`. -/
def sortLayers (layers : List Layer) : List Layer :=
  jsSort (fun a b => a.z - b.z) layers

/-- The array `sorted` of `render` (script.js 474): a copy ordered by ascending z. -/
def renderOrder (layers : List Layer) : List Layer :=
  jsSort (fun a b => a.z - b.z) layers

/-- The array `sortedLayers` of `handleCanvasMouseDown` (script.js 316): a copy
ordered by descending z. -/
def sortedLayers (layers : List Layer) : List Layer :=
  jsSort (fun a b => b.z - a.z) layers

/-! ## Hit-testing and dragging -/

/-- The glyph `state.letters[char.toLowerCase()]`; `lower` is
`String.prototype.toLowerCase` on one character. -/
def letterImg (lower : Char → String) (letters : GlyphSet) (char : Char) : Option Image :=
  letters.lookup (lower char)

/-- The pair `(width, height)` accumulated by the loop of `isPointInLayer`
(script.js 368-377). -/
def textBox (lower : Char → String) (letters : GlyphSet) (text : String) (spacing : Int) :
    Int × Int :=
  text.data.foldl
    (fun box char =>
      match letterImg lower letters char with
      | some img => (box.1 + ((img.width : Int) + spacing), max box.2 (img.height : Int))
      | none => box)
    (0, 0)

/-- The function `isPointInLayer` (script.js 362-385). -/
def isPointInLayer (lower : Char → String) (letters : GlyphSet) (x y : Int) (layer : Layer) :
    Bool :=
  if layer.data.isNone && layer.type != LayerType.text then false
  else if layer.type = LayerType.text then
    let box := textBox lower letters (layer.text.getD "") (layer.spacing.getD 0)
    decide (x ≥ layer.x) && decide (x ≤ layer.x + box.1) &&
      decide (y ≥ layer.y) && decide (y ≤ layer.y + box.2)
  else
    match layer.data with
    | some img =>
      decide (x ≥ layer.x) && decide (x ≤ layer.x + (img.width : Int)) &&
        decide (y ≥ layer.y) && decide (y ≤ layer.y + (img.height : Int))
    | none => false

/-- The loop of `handleCanvasMouseDown` (script.js 316-322): the first layer, in
descending z, that is visible and contains the point. -/
def hitTest (lower : Char → String) (letters : GlyphSet) (layers : List Layer) (x y : Int) :
    Option Layer :=
  (sortedLayers layers).find? (fun layer => layer.visible && isPointInLayer lower letters x y layer)

/-- The drag fields of `state`.  `selectedLayer` refers to an object of
`state.layers`; the record carries that object, so a write through the reference
is a write to this field. -/
structure DragState where
  selectedLayer : Option Layer
  isDragging : Bool
  dragStart : Int × Int
  snapEnabled : Bool
deriving DecidableEq, Repr

/-- The function `handleCanvasMouseDown` (script.js 307-323) at the canvas point
`(x, y)` computed from the event. -/
def handleCanvasMouseDown (lower : Char → String) (letters : GlyphSet) (layers : List Layer)
    (st : DragState) (x y : Int) : DragState :=
  { st with
    isDragging := true
    dragStart := (x, y)
    selectedLayer :=
      match hitTest lower letters layers x y with
      | some layer => some layer
      | none => st.selectedLayer }

/-- The expression `Math.round(delta / 10)` for an integer `delta` of magnitude
at most 2 ^ 53: the floor of `delta / 10 + 1 / 2`.  In that range the double
`delta / 10` is exact when it is a tie and is otherwise within 1 / 16 of the
quotient, which stays at least 1 / 10 away from a tie. -/
def mathRoundTenth (delta : Int) : Int :=
  (delta + 5) / 10

/-- The function `handleCanvasMouseMove` (script.js 325-355) at the canvas point
`(x, y)`. -/
def handleCanvasMouseMove (st : DragState) (x y : Int) : DragState :=
  if !st.isDragging then st
  else
    match st.selectedLayer with
    | none => st
    | some layer =>
      let deltaX := toDouble (x - st.dragStart.1)
      let deltaY := toDouble (y - st.dragStart.2)
      let deltaX := if st.snapEnabled then toDouble (mathRoundTenth deltaX * 10) else deltaX
      let deltaY := if st.snapEnabled then toDouble (mathRoundTenth deltaY * 10) else deltaY
      { st with
        selectedLayer := some
          { layer with x := toDouble (layer.x + deltaX), y := toDouble (layer.y + deltaY) }
        dragStart := (x, y) }

/-- A run of consecutive mouse-move events, one per point. -/
def dragThrough (st : DragState) (points : List (Int × Int)) : DragState :=
  points.foldl (fun s p => handleCanvasMouseMove s p.1 p.2) st

/-! ## Layer operations -/

/-- Apply `f` to the first element that satisfies `p`: the effect on the array of
mutating the object returned by `Array.prototype.find`. -/
def modifyFirst (p : Layer → Bool) (f : Layer → Layer) : List Layer → List Layer
  | [] => []
  | l :: ls => if p l then f l :: ls else l :: modifyFirst p f ls

/-- The function `toggleLayerVisibility` (script.js 431-438). -/
def toggleLayerVisibility (layers : List Layer) (id : Nat) : List Layer :=
  match layers.find? (fun l => l.id == id) with
  | some _ => modifyFirst (fun l => l.id == id) (fun l => { l with visible := !l.visible }) layers
  | none => layers

/-- The function `moveLayerUp` (script.js 440-448). -/
def moveLayerUp (layers : List Layer) (id : Nat) : List Layer :=
  match layers.find? (fun l => l.id == id) with
  | some _ =>
    sortLayers
      (modifyFirst (fun l => l.id == id) (fun l => { l with z := toDouble (l.z + 1) }) layers)
  | none => layers

/-- The function `moveLayerDown` (script.js 450-458). -/
def moveLayerDown (layers : List Layer) (id : Nat) : List Layer :=
  match layers.find? (fun l => l.id == id) with
  | some layer =>
    if layer.z > 0 then
      sortLayers
        (modifyFirst (fun l => l.id == id) (fun l => { l with z := toDouble (l.z - 1) }) layers)
    else layers
  | none => layers

/-- The function `deleteLayer` (script.js 460-464). -/
def deleteLayer (layers : List Layer) (id : Nat) : List Layer :=
  layers.filter (fun l => l.id != id)

/-- The function `handleCustomLayer` (script.js 154-175) once the image is
decoded: `now` is the value of `Date.now()` and `name` the file name without its
extension. -/
def handleCustomLayer (layers : List Layer) (now : Nat) (name : String) (img : Image) :
    List Layer :=
  let maxZ := (layers.map (fun l => l.z)).foldl max 0
  layers ++
    [ { id := now, name := name, type := .custom, visible := true, data := some img,
        x := 0, y := 0, z := toDouble (maxZ + 1), color := .undefined, text := none,
        spacing := none } ]

/-- The function `updateBannerZ` (script.js 195-203); `z` is the value
`parseInt(...) || 0` read from the input. -/
def updateBannerZ (layers : List Layer) (z : Int) : List Layer :=
  match layers.find? (fun l => l.type == LayerType.banner) with
  | some _ =>
    sortLayers (modifyFirst (fun l => l.type == LayerType.banner) (fun l => { l with z := z }) layers)
  | none => layers

/-- The function `updateTextZ` (script.js 241-249). -/
def updateTextZ (layers : List Layer) (z : Int) : List Layer :=
  match layers.find? (fun l => l.type == LayerType.text) with
  | some _ =>
    sortLayers (modifyFirst (fun l => l.type == LayerType.text) (fun l => { l with z := z }) layers)
  | none => layers

/-- The effect on `state.layers` of mouse-move steps on the held layer: the held
object, while it is still in the array, sits at some index, and
`handleCanvasMouseMove` adds a delta to its position. -/
def dragLayer (layers : List Layer) (index : Nat) (deltaX deltaY : Int) : List Layer :=
  match layers[index]? with
  | some layer =>
    layers.set index
      { layer with x := toDouble (layer.x + deltaX), y := toDouble (layer.y + deltaY) }
  | none => layers

/-! ## Project documents -/

/-- One entry of the `layers` array of a project document after
`JSON.parse(JSON.stringify(project))`: a property whose value was `undefined`
is absent (`Color.undefined`, `none`). -/
structure SavedLayer where
  id : Nat
  name : String
  type : LayerType
  visible : Bool
  x : Int
  y : Int
  z : Int
  color : Color
  text : Option String
  spacing : Option Int
deriving DecidableEq, Repr

/-- The arrow function mapped over `state.layers` by `saveProject`
(script.js 606-617). -/
def saveLayer (l : Layer) : SavedLayer :=
  { id := l.id, name := l.name, type := l.type, visible := l.visible,
    x := l.x, y := l.y, z := l.z, color := l.color, text := l.text, spacing := l.spacing }

/-- The `layers` array of the document written by `saveProject`
(script.js 602-622). -/
def saveProject (layers : List Layer) : List SavedLayer :=
  layers.map saveLayer

/-- The call `Object.assign(layer, saved)`: every property present in `saved`
overwrites the layer's. -/
def assignSaved (layer : Layer) (saved : SavedLayer) : Layer :=
  { layer with
    id := saved.id
    name := saved.name
    type := saved.type
    visible := saved.visible
    x := saved.x
    y := saved.y
    z := saved.z
    color := match saved.color with
      | Color.undefined => layer.color
      | c => c
    text := match saved.text with
      | some t => some t
      | none => layer.text
    spacing := match saved.spacing with
      | some s => some s
      | none => layer.spacing }

/-- The loop of `loadProject` over `project.layers` (script.js 646-651). -/
def loadProject (project : List SavedLayer) (layers : List Layer) : List Layer :=
  project.foldl
    (fun ls saved =>
      match ls.find? (fun l => l.id == saved.id) with
      | some _ => modifyFirst (fun l => l.id == saved.id) (fun l => assignSaved l saved) ls
      | none => ls)
    layers

/-! ## Sessions -/

/-- The events that change `state.layers` after start-up. -/
inductive Event where
  | customLayer (now : Nat) (name : String) (img : Image)
  | delete (id : Nat)
  | moveUp (id : Nat)
  | moveDown (id : Nat)
  | bannerZ (z : Int)
  | textZ (z : Int)
  | toggleVisibility (id : Nat)
  | drag (index : Nat) (deltaX deltaY : Int)
  | load (project : List SavedLayer)
deriving DecidableEq, Repr

/-- The handler an event runs. -/
def step (layers : List Layer) : Event → List Layer
  | .customLayer now name img => handleCustomLayer layers now name img
  | .delete id => deleteLayer layers id
  | .moveUp id => moveLayerUp layers id
  | .moveDown id => moveLayerDown layers id
  | .bannerZ z => updateBannerZ layers z
  | .textZ z => updateTextZ layers z
  | .toggleVisibility id => toggleLayerVisibility layers id
  | .drag index deltaX deltaY => dragLayer layers index deltaX deltaY
  | .load project => loadProject project layers

/-- The content of `state.layers` after a session: `addDefaultLayers` at start-up,
then the events in order. -/
def run (events : List Event) : List Layer :=
  events.foldl step addDefaultLayers

/-- The `Date.now()` readings taken by the uploads of a session, in order. -/
def uploadTimes : List Event → List Nat
  | [] => []
  | .customLayer now _ _ :: rest => now :: uploadTimes rest
  | _ :: rest => uploadTimes rest

/-! ## Rendering -/

/-- One call `ctx.drawImage(image, x, y)`. -/
structure Draw where
  image : Image
  x : Int
  y : Int
deriving DecidableEq, Repr

/-- The expression `layer.color || '#ffffff'` of `renderText`: a missing, `null`
or empty colour gives white. -/
def colorOrWhite : Color → String
  | Color.str s => if s = "" then "#ffffff" else s
  | _ => "#ffffff"

/-- The body of the loop of `renderText` (script.js 536-547), on the pair of the
cursor `currentX` and the `drawImage` calls made so far. -/
def renderTextStep (lower : Char → String) (letters : GlyphSet) (color : String)
    (spacing y : Int) (acc : Int × List Draw) (char : Char) : Int × List Draw :=
  match letterImg lower letters char with
  | some img =>
    (acc.1 + ((img.width : Int) + spacing),
      acc.2 ++ [{ image := applyColorWithShading img color, x := acc.1, y := y }])
  | none => if char = ' ' then (acc.1 + (10 + spacing), acc.2) else acc

/-- The loop of `renderText` over the characters of the text, from the cursor
`layer.x` and no call made: the final cursor and the calls. -/
def renderTextLoop (lower : Char → String) (letters : GlyphSet) (layer : Layer) :
    Int × List Draw :=
  (layer.text.getD "").data.foldl
    (renderTextStep lower letters (colorOrWhite layer.color) (layer.spacing.getD 0) layer.y)
    (layer.x, [])

/-- The function `renderText` (script.js 526-548): the `drawImage` calls it
makes on the main canvas. -/
def renderText (lower : Char → String) (letters : GlyphSet) (layer : Layer) : List Draw :=
  if layer.text.getD "" = "" || letters.isEmpty then []
  else (renderTextLoop lower letters layer).2

/-- The callback of `sorted.forEach` in `render` (script.js 476-504): the
`drawImage` calls made for one layer. -/
def drawLayer (lower : Char → String) (letters : GlyphSet) (layer : Layer) : List Draw :=
  if !layer.visible then []
  else
    match layer.type with
    | LayerType.base =>
      match layer.data with
      | some img => [{ image := img, x := layer.x, y := layer.y }]
      | none => []
    | LayerType.banner =>
      match layer.data with
      | some img =>
        match layer.color with
        | Color.str s =>
          if s = "" then [{ image := img, x := layer.x, y := layer.y }]
          else [{ image := applyColorWithShading img s, x := layer.x, y := layer.y }]
        | _ => [{ image := img, x := layer.x, y := layer.y }]
      | none => []
    | LayerType.text => renderText lower letters layer
    | LayerType.custom =>
      match layer.data with
      | some img => [{ image := img, x := layer.x, y := layer.y }]
      | none => []

/-- The function `render` (script.js 467-505): the content of `state.layers`
when it returns, and the `drawImage` calls of the layer loop in order.  The sort
runs on the copy `[...state.layers]`, so `state.layers` is handed back as it
came; `clearRect` and the grid strokes come before the loop and draw no layer. -/
def render (lower : Char → String) (letters : GlyphSet) (layers : List Layer) :
    List Layer × List Draw :=
  (layers, (renderOrder layers).flatMap (drawLayer lower letters))

/-! ## Bounding boxes, as the specification words them -/

/-- The size of the box the specification gives a layer: the text box for a text
layer, the raster dimensions for a layer that has a raster, and no box for a
layer of another kind without raster. -/
def boundingBox (lower : Char → String) (letters : GlyphSet) (layer : Layer) :
    Option (Int × Int) :=
  match layer.type with
  | LayerType.text => some (textBox lower letters (layer.text.getD "") (layer.spacing.getD 0))
  | _ => layer.data.map (fun img => ((img.width : Int), (img.height : Int)))

/-- The point lies inside the layer's box, edges included. -/
def InBox (lower : Char → String) (letters : GlyphSet) (x y : Int) (layer : Layer) : Prop :=
  match boundingBox lower letters layer with
  | some box => layer.x ≤ x ∧ x ≤ layer.x + box.1 ∧ layer.y ≤ y ∧ y ≤ layer.y + box.2
  | none => False

instance (lower : Char → String) (letters : GlyphSet) (x y : Int) (layer : Layer) :
    Decidable (InBox lower letters x y layer) := by
  unfold InBox
  split <;> infer_instance

/-! ## Text layout, as the specification words it -/

/-- The glyph draws of a text, as pairs of glyph and cursor position: characters
are taken left to right; a character with a glyph is placed at the cursor and
advances it by glyph width + spacing, a space without glyph advances it by
10 + spacing, any other character without glyph is skipped. -/
def layoutGlyphs (lower : Char → String) (letters : GlyphSet) (spacing : Int) :
    Int → List Char → List (Image × Int)
  | _, [] => []
  | cursor, c :: rest =>
    match letterImg lower letters c with
    | some img =>
      (img, cursor) :: layoutGlyphs lower letters spacing (cursor + ((img.width : Int) + spacing)) rest
    | none =>
      if c = ' ' then layoutGlyphs lower letters spacing (cursor + (10 + spacing)) rest
      else layoutGlyphs lower letters spacing cursor rest

/-- The cursor after the last character of a text, by the same rules. -/
def layoutCursor (lower : Char → String) (letters : GlyphSet) (spacing : Int) :
    Int → List Char → Int
  | cursor, [] => cursor
  | cursor, c :: rest =>
    match letterImg lower letters c with
    | some img => layoutCursor lower letters spacing (cursor + ((img.width : Int) + spacing)) rest
    | none =>
      if c = ' ' then layoutCursor lower letters spacing (cursor + (10 + spacing)) rest
      else layoutCursor lower letters spacing cursor rest

/-- The glyphs of the characters of a text that have one, in order. -/
def glyphsOf (lower : Char → String) (letters : GlyphSet) (text : String) : List Image :=
  text.data.filterMap (letterImg lower letters)

/-- The bounding size the specification gives a text: the sum of glyph width +
spacing and the greatest glyph height, over the characters that have a glyph. -/
def layoutBox (lower : Char → String) (letters : GlyphSet) (text : String) (spacing : Int) :
    Int × Int :=
  (((glyphsOf lower letters text).map (fun img => (img.width : Int) + spacing)).sum,
    ((glyphsOf lower letters text).map (fun img => (img.height : Int))).foldr max 0)

/-! ## Sample data -/

/-- The lower-casing of one character, on ASCII letters. -/
def asciiLower (c : Char) : String :=
  String.singleton c.toLower

/-- A base layer holding a 4x4 raster at the origin. -/
def sampleBase : Layer :=
  { id := 1, name := "Base", type := .base, visible := true,
    data := some { width := 4, height := 4, data := [] },
    x := 0, y := 0, z := 1, color := .undefined, text := none, spacing := none }

/-- A banner layer holding a 2x2 raster at (1, 1), above the base. -/
def sampleBanner : Layer :=
  { id := 2, name := "Banner", type := .banner, visible := true,
    data := some { width := 2, height := 2, data := [] },
    x := 1, y := 1, z := 2, color := .null, text := none, spacing := none }

/-- A drag in progress on the sample banner, pressed at (2, 2), snap off. -/
def sampleDrag : DragState :=
  { selectedLayer := some sampleBanner, isDragging := true, dragStart := (2, 2),
    snapEnabled := false }

/-- The same drag with snap-to-grid on. -/
def sampleSnapDrag : DragState :=
  { selectedLayer := some sampleBanner, isDragging := true, dragStart := (2, 2),
    snapEnabled := true }

/-- A layer with z = 0. -/
def sampleGround : Layer :=
  { sampleBase with z := 0 }

/-- A decoded 1x1 raster. -/
def sampleImage : Image :=
  { width := 1, height := 1, data := [{ r := 255, g := 255, b := 255, a := 255 }] }

/-- The layers after two uploads that read the same clock value, the second
upload then dragged 7 pixels to the right. -/
def sampleClash : List Layer :=
  run [Event.customLayer 1762300800000 "logo" sampleImage,
    Event.customLayer 1762300800000 "star" sampleImage, Event.drag 4 7 0]

/-- A project document, written by hand, that gives the base layer a colour. -/
def sampleForeign : List SavedLayer :=
  [ { id := 1, name := "Base", type := .base, visible := true, x := 0, y := 0, z := 1,
      color := .str "#ff0000", text := none, spacing := none } ]

/-- The default layers after a drag of the banner, a z move and a visibility
toggle. -/
def sampleEdited : List Layer :=
  run [Event.drag 1 5 (-5), Event.moveUp 1, Event.moveUp 1, Event.toggleVisibility 3]

/-- A 2x1 raster of fully opaque white pixels. -/
def sampleWhite : Image :=
  { width := 2, height := 1,
    data := [{ r := 255, g := 255, b := 255, a := 255 }, { r := 255, g := 255, b := 255, a := 255 }] }

/-- A glyph of width 10 and height 5. -/
def sampleGlyph : Image :=
  { width := 10, height := 5, data := List.replicate 50 { r := 255, g := 255, b := 255, a := 255 } }

/-- A text layer at (7, 3) holding the text `AB ` with spacing 2 and a red tint. -/
def sampleText : Layer :=
  { id := 3, name := "Text", type := .text, visible := true, data := none,
    x := 7, y := 3, z := 3, color := .str "#ff0000", text := some "AB ", spacing := some 2 }

/-- The default layers after a project load and two z edits that put every layer
below zero: z = -5, -4, -3. -/
def sampleSunk : List Layer :=
  run [Event.load
      [ { id := 1, name := "Base", type := .base, visible := true, x := 0, y := 0, z := -5,
          color := .undefined, text := none, spacing := none } ],
    Event.bannerZ (-4), Event.textZ (-3)]

/-- The sample base lifted to z = 2, the z of the sample banner. -/
def sampleLifted : Layer :=
  { sampleBase with z := 2 }

/-- A hidden custom layer holding a raster. -/
def sampleHidden : Layer :=
  { id := 9, name := "Hidden", type := .custom, visible := false, data := some sampleImage,
    x := 0, y := 0, z := 1, color := .undefined, text := none, spacing := none }

/-- The banner stored before a base of the same z, then a hidden layer and a
layer of z = 0. -/
def sampleTied : List Layer :=
  [sampleBanner, sampleLifted, sampleHidden, sampleGround]

/-- A coordinate of magnitude at most 2 ^ 51 = 2251799813685248: sums of three
such values are integers that a double holds exactly. -/
def SafeCoordinate (v : Int) : Prop :=
  -2251799813685248 ≤ v ∧ v ≤ 2251799813685248

instance (v : Int) : Decidable (SafeCoordinate v) := by
  unfold SafeCoordinate
  infer_instance

/-- A drag in progress on a banner that the position input put at
x = 2 ^ 53, pressed at (2, 2), snap off. -/
def sampleFarDrag : DragState :=
  { selectedLayer := some { sampleBanner with x := 9007199254740992 }, isDragging := true,
    dragStart := (2, 2), snapEnabled := false }

/-- A 1x1 raster whose pixel is white with alpha 1, as an anti-aliased glyph edge
has. -/
def sampleFaint : Image :=
  { width := 1, height := 1, data := [{ r := 255, g := 255, b := 255, a := 1 }] }

/-- A 1x1 raster whose pixel is opaque mid-grey. -/
def sampleGrey : Image :=
  { width := 1, height := 1, data := [{ r := 128, g := 128, b := 128, a := 255 }] }

/-- A custom layer holding a 4x4 raster at the origin, above the sample banner. -/
def sampleTop : Layer :=
  { id := 1762300800000, name := "logo", type := .custom, visible := true,
    data := some { width := 4, height := 4, data := [] },
    x := 0, y := 0, z := 3, color := .undefined, text := none, spacing := none }

/-! # Proofs -/

/-! ## Lemmas on `hexToRgb` -/

theorem isHexDigit_cases {c : Char} (h : isHexDigit c = true) :
    c ∈ "0123456789abcdefABCDEF".data := by
  have hc : c = Char.ofNat c.toNat := (Char.ofNat_toNat c).symm
  simp only [isHexDigit, Bool.or_eq_true, Bool.and_eq_true, decide_eq_true_eq] at h
  generalize c.toNat = n at h hc
  subst hc
  rcases h with (⟨h1, h2⟩ | ⟨h1, h2⟩) | ⟨h1, h2⟩ <;> interval_cases n <;> decide

theorem hexDigitValue_eq {c : Char} (h : isHexDigit c = true) :
    hexDigitValue c = hexValueOf c ∧ hexValueOf c ≤ 15 := by
  have hm := isHexDigit_cases h
  simp only [String.data, List.mem_cons, List.mem_singleton, List.not_mem_nil, or_false] at hm
  rcases hm with h | h | h | h | h | h | h | h | h | h | h | h | h | h | h | h | h | h | h | h | h | h <;>
    subst h <;> decide

theorem not_hash_of_isHexDigit {c : Char} (h : isHexDigit c = true) : c ≠ '#' := by
  intro hc
  subst hc
  exact absurd h (by decide)

theorem matchSixDigits_digits {d1 d2 d3 d4 d5 d6 : Char}
    (h1 : isHexDigit d1 = true) (h2 : isHexDigit d2 = true) (h3 : isHexDigit d3 = true)
    (h4 : isHexDigit d4 = true) (h5 : isHexDigit d5 = true) (h6 : isHexDigit d6 = true) :
    matchSixDigits [d1, d2, d3, d4, d5, d6] = some ([d1, d2], [d3, d4], [d5, d6]) := by
  simp [matchSixDigits, h1, h2, h3, h4, h5, h6]

theorem matchSixDigits_some {l : List Char} {g : List Char × List Char × List Char}
    (h : matchSixDigits l = some g) :
    ∃ d1 d2 d3 d4 d5 d6 : Char,
      (isHexDigit d1 = true ∧ isHexDigit d2 = true ∧ isHexDigit d3 = true ∧
        isHexDigit d4 = true ∧ isHexDigit d5 = true ∧ isHexDigit d6 = true) ∧
      l = [d1, d2, d3, d4, d5, d6] := by
  match l, h with
  | [c1, c2, c3, c4, c5, c6], h =>
    refine ⟨c1, c2, c3, c4, c5, c6, ?_, rfl⟩
    by_contra hn
    simp only [matchSixDigits, Bool.and_eq_true] at h
    rw [if_neg] at h
    · exact Option.noConfusion h
    · intro hh
      exact hn ⟨hh.1.1.1.1.1, hh.1.1.1.1.2, hh.1.1.1.2, hh.1.1.2, hh.1.2, hh.2⟩

theorem execHexPattern_plain {d1 d2 d3 d4 d5 d6 : Char}
    (h1 : isHexDigit d1 = true) (h2 : isHexDigit d2 = true) (h3 : isHexDigit d3 = true)
    (h4 : isHexDigit d4 = true) (h5 : isHexDigit d5 = true) (h6 : isHexDigit d6 = true) :
    execHexPattern [d1, d2, d3, d4, d5, d6] = some ([d1, d2], [d3, d4], [d5, d6]) := by
  have hne := not_hash_of_isHexDigit h1
  unfold execHexPattern
  split
  · rename_i rest heq
    simp only [List.cons.injEq] at heq
    exact absurd heq.1 hne
  · exact matchSixDigits_digits h1 h2 h3 h4 h5 h6

theorem execHexPattern_hash {d1 d2 d3 d4 d5 d6 : Char}
    (h1 : isHexDigit d1 = true) (h2 : isHexDigit d2 = true) (h3 : isHexDigit d3 = true)
    (h4 : isHexDigit d4 = true) (h5 : isHexDigit d5 = true) (h6 : isHexDigit d6 = true) :
    execHexPattern ('#' :: [d1, d2, d3, d4, d5, d6]) = some ([d1, d2], [d3, d4], [d5, d6]) := by
  simp [execHexPattern, matchSixDigits_digits h1 h2 h3 h4 h5 h6]

theorem execHexPattern_some {l : List Char} {g : List Char × List Char × List Char}
    (h : execHexPattern l = some g) :
    ∃ d1 d2 d3 d4 d5 d6 : Char,
      (isHexDigit d1 = true ∧ isHexDigit d2 = true ∧ isHexDigit d3 = true ∧
        isHexDigit d4 = true ∧ isHexDigit d5 = true ∧ isHexDigit d6 = true) ∧
      (l = [d1, d2, d3, d4, d5, d6] ∨ l = '#' :: [d1, d2, d3, d4, d5, d6]) := by
  unfold execHexPattern at h
  split at h
  · rename_i rest
    cases hm : matchSixDigits rest with
    | some g2 =>
      obtain ⟨d1, d2, d3, d4, d5, d6, hd, hl⟩ := matchSixDigits_some hm
      exact ⟨d1, d2, d3, d4, d5, d6, hd, Or.inr (by rw [hl])⟩
    | none =>
      rw [hm] at h
      obtain ⟨d1, d2, d3, d4, d5, d6, hd, hl⟩ := matchSixDigits_some h
      exact ⟨d1, d2, d3, d4, d5, d6, hd, Or.inl hl⟩
  · obtain ⟨d1, d2, d3, d4, d5, d6, hd, hl⟩ := matchSixDigits_some h
    exact ⟨d1, d2, d3, d4, d5, d6, hd, Or.inl hl⟩

theorem parseInt16_pair {hi lo : Char} (h1 : isHexDigit hi = true) (h2 : isHexDigit lo = true) :
    parseInt16 [hi, lo] = byteOfPair hi lo ∧ byteOfPair hi lo ≤ 255 := by
  have a1 := hexDigitValue_eq h1
  have a2 := hexDigitValue_eq h2
  simp only [parseInt16, List.foldl_cons, List.foldl_nil, byteOfPair]
  omega

theorem hexToRgb_digits {s : String} {d1 d2 d3 d4 d5 d6 : Char}
    (h1 : isHexDigit d1 = true) (h2 : isHexDigit d2 = true) (h3 : isHexDigit d3 = true)
    (h4 : isHexDigit d4 = true) (h5 : isHexDigit d5 = true) (h6 : isHexDigit d6 = true)
    (hs : s.data = [d1, d2, d3, d4, d5, d6] ∨ s.data = '#' :: [d1, d2, d3, d4, d5, d6]) :
    hexToRgb s =
      { r := byteOfPair d1 d2, g := byteOfPair d3 d4, b := byteOfPair d5 d6 } := by
  have he : execHexPattern s.data = some ([d1, d2], [d3, d4], [d5, d6]) := by
    rcases hs with hs | hs
    · rw [hs]; exact execHexPattern_plain h1 h2 h3 h4 h5 h6
    · rw [hs]; exact execHexPattern_hash h1 h2 h3 h4 h5 h6
  simp only [hexToRgb, he, (parseInt16_pair h1 h2).1, (parseInt16_pair h3 h4).1,
    (parseInt16_pair h5 h6).1]

theorem hexToRgb_malformed {s : String} (h : ¬ IsHexColor s) :
    hexToRgb s = { r := 255, g := 255, b := 255 } := by
  cases he : execHexPattern s.data with
  | none => simp only [hexToRgb, he]
  | some g => exact absurd (execHexPattern_some he) h

theorem hexToRgb_byte (s : String) :
    (hexToRgb s).r ≤ 255 ∧ (hexToRgb s).g ≤ 255 ∧ (hexToRgb s).b ≤ 255 := by
  by_cases h : IsHexColor s
  · obtain ⟨d1, d2, d3, d4, d5, d6, ⟨h1, h2, h3, h4, h5, h6⟩, hs⟩ := h
    rw [hexToRgb_digits h1 h2 h3 h4 h5 h6 hs]
    exact ⟨(parseInt16_pair h1 h2).2, (parseInt16_pair h3 h4).2, (parseInt16_pair h5 h6).2⟩
  · rw [hexToRgb_malformed h]
    exact ⟨le_refl _, le_refl _, le_refl _⟩

/-! ## Lemmas on the stored channel value -/

theorem toUint8Clamp_full {t : Nat} (ht : t ≤ 255) : toUint8Clamp (t * (3 * 255)) (3 * 255) = t := by
  simp [toUint8Clamp, ht]

theorem toUint8Clamp_zero (t : Nat) : toUint8Clamp (t * 0) (3 * 255) = 0 := by
  simp [toUint8Clamp]

theorem toUint8Clamp_near {t s : Nat} (ht : t ≤ 255) (hs : s ≤ 765) :
    toUint8Clamp (t * s) (3 * 255) ≤ t ∧
      2 * (3 * 255) * toUint8Clamp (t * s) (3 * 255) < 2 * (t * s) + 3 * 255 ∧
      2 * (t * s) < 2 * (3 * 255) * toUint8Clamp (t * s) (3 * 255) + 3 * 255 := by
  have hts : t * s ≤ t * 765 := Nat.mul_le_mul_left t hs
  have hdm := Nat.div_add_mod (t * s) 765
  have hml := Nat.mod_lt (t * s) (show 0 < 765 by norm_num)
  have hq : t * s / 765 ≤ t := by
    calc t * s / 765 ≤ t * 765 / 765 := Nat.div_le_div_right hts
      _ = t := by simp
  simp only [toUint8Clamp, show 3 * 255 = 765 by norm_num]
  generalize t * s / 765 = q at *
  generalize t * s % 765 = m at *
  generalize t * s = n at *
  have hne : 2 * m ≠ 765 := by omega
  by_cases h1 : 2 * m < 765
  · simp only [h1, if_true]
    rw [min_eq_left (by omega)]
    omega
  · have h2 : 765 < 2 * m := by omega
    simp only [h1, h2, if_true, if_false]
    have hqt : q + 1 ≤ t := by
      by_contra hc
      have : q = t := by omega
      subst this
      omega
    rw [min_eq_left (by omega)]
    omega

theorem canvasChannel_opaque {c : Nat} (hc : c ≤ 255) : canvasChannel c 255 = c := by
  simp [canvasChannel, toUint8Clamp, hc]

theorem shadeChannel_rat {t : Nat} {p : Pixel} (ht : t ≤ 255) (hp : p.IsByte) :
    IsShade t p (shadeChannel t p) := by
  unfold IsShade
  obtain ⟨hr, hg, hb, _⟩ := hp
  have hs : p.r + p.g + p.b ≤ 765 := by omega
  obtain ⟨hle, hlo, hhi⟩ := toUint8Clamp_near ht hs
  refine ⟨?_, hle⟩
  unfold shadeChannel
  generalize toUint8Clamp (t * (p.r + p.g + p.b)) (3 * 255) = out at hlo hhi
  generalize p.r + p.g + p.b = n at hlo hhi
  have hlo' : (2 * (3 * 255) * (out : ℚ)) < 2 * ((t : ℚ) * n) + 3 * 255 := by exact_mod_cast hlo
  have hhi' : (2 * ((t : ℚ) * n)) < 2 * (3 * 255) * (out : ℚ) + 3 * 255 := by exact_mod_cast hhi
  have he : (t : ℚ) * ((n : ℚ) / (3 * 255)) * (3 * 255) = (t : ℚ) * n := by
    field_simp
  rw [abs_lt]
  constructor <;> linarith

/-! ## Tinting: the claims -/

/-- C1: for every image and every colour string, `applyColorWithShading` keeps
every pixel's alpha, and a pixel whose source alpha is 0 comes out unchanged in
all four channels. -/
theorem applyColorWithShading_alpha (img : Image) (hexColor : String) :
    List.Forall₂ (fun src out => out.a = src.a ∧ (src.a = 0 → out = src))
      img.data (applyColorWithShading img hexColor).data := by
  simp only [applyColorWithShading, List.forall₂_map_right_iff, List.forall₂_same]
  intro p _
  unfold shadePixel
  by_cases h : p.a = 0
  · simp [h]
  · simp [h]

/-- C2: tinting an image of fully opaque white pixels with the colour written
`#RRGGBB` gives pixels whose RGB is exactly that colour, and for any colour
string a black source pixel of positive alpha comes out black. -/
theorem applyColorWithShading_white_black (d1 d2 d3 d4 d5 d6 : Char)
    (h1 : isHexDigit d1 = true) (h2 : isHexDigit d2 = true) (h3 : isHexDigit d3 = true)
    (h4 : isHexDigit d4 = true) (h5 : isHexDigit d5 = true) (h6 : isHexDigit d6 = true)
    (img : Image) (hw : ∀ p ∈ img.data, p = { r := 255, g := 255, b := 255, a := 255 }) :
    (∀ q ∈ (applyColorWithShading img (String.mk ('#' :: [d1, d2, d3, d4, d5, d6]))).data,
        q = { r := byteOfPair d1 d2, g := byteOfPair d3 d4, b := byteOfPair d5 d6, a := 255 }) ∧
      ∀ (src : Image) (color : String),
        List.Forall₂
          (fun p q => p.r = 0 ∧ p.g = 0 ∧ p.b = 0 ∧ 0 < p.a → q.r = 0 ∧ q.g = 0 ∧ q.b = 0)
          src.data (applyColorWithShading src color).data := by
  constructor
  · intro q hq
    simp only [applyColorWithShading, List.mem_map] at hq
    obtain ⟨p, hp, rfl⟩ := hq
    rw [hw p hp, hexToRgb_digits h1 h2 h3 h4 h5 h6 (Or.inr rfl)]
    have b1 := (parseInt16_pair h1 h2).2
    have b2 := (parseInt16_pair h3 h4).2
    have b3 := (parseInt16_pair h5 h6).2
    simp only [shadePixel, shadeChannel, show (255 : Nat) + 255 + 255 = 3 * 255 by norm_num,
      toUint8Clamp_full b1, toUint8Clamp_full b2, toUint8Clamp_full b3]
    simp
  · intro src color
    simp only [applyColorWithShading, List.forall₂_map_right_iff, List.forall₂_same]
    rintro p _ ⟨hr, hg, hb, ha⟩
    have hne : p.a ≠ 0 := by omega
    simp only [shadePixel, hne, if_false, shadeChannel, hr, hg, hb, Nat.add_zero,
      toUint8Clamp_zero]
    exact ⟨trivial, trivial, trivial⟩

/-- A 2x1 opaque white image tinted with `#ff8000` is uniformly (255, 128, 0). -/
theorem applyColorWithShading_white_black_witness :
    (applyColorWithShading sampleWhite "#ff8000").data =
      List.replicate 2 { r := 255, g := 128, b := 0, a := 255 } :=
  List.eq_replicate_iff.mpr
    ⟨rfl, (applyColorWithShading_white_black 'f' 'f' '8' '0' '0' '0' (by decide) (by decide)
      (by decide) (by decide) (by decide) (by decide) sampleWhite (by decide)).1⟩

/-- C3, as stated, fails on the returned canvas: a white source pixel of alpha 1
tinted with `#ff8000` is written as (255, 128, 0, 1), and the canvas, which keeps
colour premultiplied by alpha, holds (255, 255, 0, 1): the green channel is 255,
above the target's 128. -/
theorem canvas_channel_above_target :
    canvasHolds { r := 255, g := 255, b := 255, a := 1 } =
        { r := 255, g := 255, b := 255, a := 1 } ∧
      (applyColorWithShading sampleFaint "#ff8000").data =
        [{ r := 255, g := 128, b := 0, a := 1 }] ∧
      (canvasOf (applyColorWithShading sampleFaint "#ff8000")).data =
        [{ r := 255, g := 255, b := 0, a := 1 }] ∧
      (hexToRgb "#ff8000").g = 128 := by
  decide

/-- C3, amended: `applyColorWithShading` returns an image of the dimensions of
its input; for a source pixel of positive alpha each channel it writes is the
byte nearest to target channel times brightness, brightness being
(R+G+B)/(3·255) of the source pixel, and lies between 0 and the target channel;
and for a fully opaque source pixel that byte is the channel the returned canvas
holds. -/
theorem applyColorWithShading_brightness (img : Image) (hexColor : String)
    (hb : ∀ p ∈ img.data, p.IsByte) :
    (canvasOf (applyColorWithShading img hexColor)).width = img.width ∧
      (canvasOf (applyColorWithShading img hexColor)).height = img.height ∧
      List.Forall₂
        (fun src out => 0 < src.a →
          IsShade (hexToRgb hexColor).r src out.r ∧ IsShade (hexToRgb hexColor).g src out.g ∧
            IsShade (hexToRgb hexColor).b src out.b)
        img.data (applyColorWithShading img hexColor).data ∧
      List.Forall₂
        (fun src out => src.a = 255 →
          out.a = 255 ∧ IsShade (hexToRgb hexColor).r src out.r ∧
            IsShade (hexToRgb hexColor).g src out.g ∧ IsShade (hexToRgb hexColor).b src out.b)
        img.data (canvasOf (applyColorWithShading img hexColor)).data := by
  obtain ⟨br, bg, bb⟩ := hexToRgb_byte hexColor
  refine ⟨rfl, rfl, ?_, ?_⟩
  · simp only [applyColorWithShading, List.forall₂_map_right_iff, List.forall₂_same]
    intro p hp ha
    have hne : p.a ≠ 0 := by omega
    simp only [shadePixel, hne, if_false]
    exact ⟨shadeChannel_rat br (hb p hp), shadeChannel_rat bg (hb p hp),
      shadeChannel_rat bb (hb p hp)⟩
  · simp only [canvasOf, applyColorWithShading, List.map_map, List.forall₂_map_right_iff,
      List.forall₂_same]
    intro p hp ha
    have hne : p.a ≠ 0 := by omega
    have h1 := shadeChannel_rat br (hb p hp)
    have h2 := shadeChannel_rat bg (hb p hp)
    have h3 := shadeChannel_rat bb (hb p hp)
    have hshade : shadePixel (hexToRgb hexColor) p =
        { r := shadeChannel (hexToRgb hexColor).r p, g := shadeChannel (hexToRgb hexColor).g p,
          b := shadeChannel (hexToRgb hexColor).b p, a := 255 } := by
      unfold shadePixel
      rw [if_neg hne, ha]
    have hheld : canvasHolds (shadePixel (hexToRgb hexColor) p) =
        shadePixel (hexToRgb hexColor) p := by
      rw [hshade]
      simp only [canvasHolds, canvasChannel_opaque (le_trans h1.2 br),
        canvasChannel_opaque (le_trans h2.2 bg), canvasChannel_opaque (le_trans h3.2 bb)]
    simp only [Function.comp, hheld]
    rw [hshade]
    exact ⟨rfl, h1, h2, h3⟩

/-- A mid-grey opaque pixel tinted with `#ff8000` is held as (128, 64, 0, 255). -/
theorem applyColorWithShading_brightness_witness :
    (canvasOf (applyColorWithShading sampleGrey "#ff8000")).data =
        [{ r := 128, g := 64, b := 0, a := 255 }] ∧
      List.Forall₂
        (fun src out => src.a = 255 →
          out.a = 255 ∧ IsShade (hexToRgb "#ff8000").r src out.r ∧
            IsShade (hexToRgb "#ff8000").g src out.g ∧ IsShade (hexToRgb "#ff8000").b src out.b)
        sampleGrey.data (canvasOf (applyColorWithShading sampleGrey "#ff8000")).data :=
  ⟨by decide, (applyColorWithShading_brightness sampleGrey "#ff8000" (by decide)).2.2.2⟩

/-- C4: `hexToRgb` is total; on an optional `#` followed by exactly six
hexadecimal digits it returns the three bytes the digit pairs denote, and on
every other string it returns white. -/
theorem hexToRgb_total (s : String) :
    (∀ d1 d2 d3 d4 d5 d6 : Char,
        isHexDigit d1 = true → isHexDigit d2 = true → isHexDigit d3 = true →
        isHexDigit d4 = true → isHexDigit d5 = true → isHexDigit d6 = true →
        (s.data = [d1, d2, d3, d4, d5, d6] ∨ s.data = '#' :: [d1, d2, d3, d4, d5, d6]) →
        hexToRgb s =
            { r := byteOfPair d1 d2, g := byteOfPair d3 d4, b := byteOfPair d5 d6 } ∧
          byteOfPair d1 d2 ≤ 255 ∧ byteOfPair d3 d4 ≤ 255 ∧ byteOfPair d5 d6 ≤ 255) ∧
      (¬ IsHexColor s → hexToRgb s = { r := 255, g := 255, b := 255 }) := by
  refine ⟨?_, hexToRgb_malformed⟩
  intro d1 d2 d3 d4 d5 d6 h1 h2 h3 h4 h5 h6 hs
  exact ⟨hexToRgb_digits h1 h2 h3 h4 h5 h6 hs, (parseInt16_pair h1 h2).2,
    (parseInt16_pair h3 h4).2, (parseInt16_pair h5 h6).2⟩

/-- The colour `1A2b3C` decodes to (26, 43, 60); the word `red` decodes to white. -/
theorem hexToRgb_total_witness :
    hexToRgb "1A2b3C" = { r := 26, g := 43, b := 60 } ∧
      hexToRgb "red" = { r := 255, g := 255, b := 255 } :=
  ⟨((hexToRgb_total "1A2b3C").1 '1' 'A' '2' 'b' '3' 'C' (by decide) (by decide) (by decide)
      (by decide) (by decide) (by decide) (Or.inl rfl)).1,
    (hexToRgb_total "red").2 (by
      rintro ⟨d1, d2, d3, d4, d5, d6, _, h | h⟩ <;>
        exact absurd (congrArg List.length h) (by simp [String.length]))⟩

/-! ## Lemmas on the z orders -/

theorem sortedLayers_perm (layers : List Layer) : (sortedLayers layers).Perm layers :=
  List.perm_insertionSort _ layers

theorem renderOrder_perm (layers : List Layer) : (renderOrder layers).Perm layers :=
  List.perm_insertionSort _ layers

theorem sortLayers_perm (layers : List Layer) : (sortLayers layers).Perm layers :=
  List.perm_insertionSort _ layers

theorem sortedLayers_pairwise (layers : List Layer) :
    (sortedLayers layers).Pairwise (fun a b => b.z ≤ a.z) := by
  haveI : IsTotal Layer (fun a b => b.z - a.z ≤ 0) :=
    ⟨fun a b => by show b.z - a.z ≤ 0 ∨ a.z - b.z ≤ 0; omega⟩
  haveI : IsTrans Layer (fun a b => b.z - a.z ≤ 0) :=
    ⟨fun a b c h1 h2 => by
      have h1' : b.z - a.z ≤ 0 := h1
      have h2' : c.z - b.z ≤ 0 := h2
      show c.z - a.z ≤ 0
      omega⟩
  have h : List.Pairwise (fun a b : Layer => b.z - a.z ≤ 0) (sortedLayers layers) :=
    List.sorted_insertionSort (fun a b : Layer => b.z - a.z ≤ 0) layers
  refine List.Pairwise.imp ?_ h
  intro a b hab
  omega

theorem renderOrder_pairwise (layers : List Layer) :
    (renderOrder layers).Pairwise (fun a b => a.z ≤ b.z) := by
  haveI : IsTotal Layer (fun a b => a.z - b.z ≤ 0) :=
    ⟨fun a b => by show a.z - b.z ≤ 0 ∨ b.z - a.z ≤ 0; omega⟩
  haveI : IsTrans Layer (fun a b => a.z - b.z ≤ 0) :=
    ⟨fun a b c h1 h2 => by
      have h1' : a.z - b.z ≤ 0 := h1
      have h2' : b.z - c.z ≤ 0 := h2
      show a.z - c.z ≤ 0
      omega⟩
  have h : List.Pairwise (fun a b : Layer => a.z - b.z ≤ 0) (renderOrder layers) :=
    List.sorted_insertionSort (fun a b : Layer => a.z - b.z ≤ 0) layers
  refine List.Pairwise.imp ?_ h
  intro a b hab
  omega

/-! ## Hit-testing -/

theorem isPointInLayer_iff (lower : Char → String) (letters : GlyphSet) (x y : Int)
    (layer : Layer) :
    isPointInLayer lower letters x y layer = true ↔ InBox lower letters x y layer := by
  unfold isPointInLayer InBox boundingBox
  cases ht : layer.type <;> cases hd : layer.data <;>
    simp [ht, hd, and_assoc]

/-- C5, as stated, fails: with a third layer stacked over them, the point (2, 2)
lies inside the boxes of the two overlapping visible layers base and banner, and
the scan selects neither of them but the third layer. -/
theorem hitTest_third_layer_wins :
    (InBox asciiLower [] 2 2 sampleBase ∧ InBox asciiLower [] 2 2 sampleBanner ∧
        sampleBase.z < sampleBanner.z) ∧
      hitTest asciiLower [] [sampleBase, sampleBanner, sampleTop] 2 2 = some sampleTop ∧
      hitTest asciiLower [] [sampleBase, sampleBanner, sampleTop] 2 2 ≠ some sampleBanner := by
  decide

/-- C5, amended: when the point is outside the box of every visible layer the
mouse-down scan selects no layer (the selection is left as it was); when some
visible layer contains the point, the scan selects a visible layer that contains
it and whose z is the highest among all visible layers containing it; so a
layer that contains the point is the one selected when every other visible layer
containing the point has a lower z, as the higher of two overlapping layers is
when no third layer is over the point. -/
theorem hitTest_outside_and_topmost (lower : Char → String) (letters : GlyphSet)
    (layers : List Layer) (x y : Int) :
    ((∀ l ∈ layers, l.visible = true → ¬ InBox lower letters x y l) →
        hitTest lower letters layers x y = none ∧
          ∀ st, (handleCanvasMouseDown lower letters layers st x y).selectedLayer =
            st.selectedLayer) ∧
      (∀ a ∈ layers, a.visible = true → InBox lower letters x y a →
        ∃ h, hitTest lower letters layers x y = some h ∧ h ∈ layers ∧ h.visible = true ∧
          InBox lower letters x y h ∧
          (∀ l ∈ layers, l.visible = true → InBox lower letters x y l → l.z ≤ h.z) ∧
          ∀ st, (handleCanvasMouseDown lower letters layers st x y).selectedLayer = some h) ∧
      ∀ a ∈ layers, a.visible = true → InBox lower letters x y a →
        (∀ l ∈ layers, l.visible = true → InBox lower letters x y l → l = a ∨ l.z < a.z) →
        hitTest lower letters layers x y = some a ∧
          ∀ st, (handleCanvasMouseDown lower letters layers st x y).selectedLayer = some a := by
  have htop : ∀ a ∈ layers, a.visible = true → InBox lower letters x y a →
      ∃ h, hitTest lower letters layers x y = some h ∧ h ∈ layers ∧ h.visible = true ∧
        InBox lower letters x y h ∧
        (∀ l ∈ layers, l.visible = true → InBox lower letters x y l → l.z ≤ h.z) := by
    intro a ha hva hia
    have hpa : (a.visible && isPointInLayer lower letters x y a) = true := by
      simp only [Bool.and_eq_true, isPointInLayer_iff]
      exact ⟨hva, hia⟩
    have hmem : a ∈ sortedLayers layers := (sortedLayers_perm layers).mem_iff.mpr ha
    cases hf : hitTest lower letters layers x y with
    | none =>
      unfold hitTest at hf
      rw [List.find?_eq_none] at hf
      exact absurd hpa (hf a hmem)
    | some c =>
      unfold hitTest at hf
      obtain ⟨hpc, pre, post, hsplit, hpre⟩ := List.find?_eq_some.mp hf
      simp only [Bool.and_eq_true, isPointInLayer_iff] at hpc
      have hc : c ∈ layers :=
        (sortedLayers_perm layers).mem_iff.mp (by rw [hsplit]; simp)
      refine ⟨c, rfl, hc, hpc.1, hpc.2, ?_⟩
      intro l hl hvl hil
      have hpl : (l.visible && isPointInLayer lower letters x y l) = true := by
        simp only [Bool.and_eq_true, isPointInLayer_iff]
        exact ⟨hvl, hil⟩
      have hlmem : l ∈ sortedLayers layers := (sortedLayers_perm layers).mem_iff.mpr hl
      rw [hsplit] at hlmem
      have hsorted := sortedLayers_pairwise layers
      rw [hsplit, List.pairwise_append] at hsorted
      rcases List.mem_append.mp hlmem with h1 | h1
      · have := hpre l h1
        rw [hpl] at this
        exact absurd this (by decide)
      · rcases List.mem_cons.mp h1 with h2 | h2
        · rw [h2]
        · exact (List.pairwise_cons.mp hsorted.2.1).1 l h2
  refine ⟨?_, ?_, ?_⟩
  · intro hout
    have hnone : hitTest lower letters layers x y = none := by
      unfold hitTest
      rw [List.find?_eq_none]
      intro l hl
      have hl' : l ∈ layers := (sortedLayers_perm layers).mem_iff.mp hl
      simp only [Bool.and_eq_true, not_and, isPointInLayer_iff]
      exact hout l hl'
    refine ⟨hnone, fun st => ?_⟩
    simp only [handleCanvasMouseDown, hnone]
  · intro a ha hva hia
    obtain ⟨h, hsome, hmem, hvis, hin, hmax⟩ := htop a ha hva hia
    refine ⟨h, hsome, hmem, hvis, hin, hmax, fun st => ?_⟩
    simp only [handleCanvasMouseDown, hsome]
  · intro a ha hva hia honly
    obtain ⟨h, hsome, hmem, hvis, hin, hmax⟩ := htop a ha hva hia
    have hha : h = a := by
      rcases honly h hmem hvis hin with h1 | h1
      · exact h1
      · have := hmax a ha hva hia
        omega
    rw [hha] at hsome
    refine ⟨hsome, fun st => ?_⟩
    simp only [handleCanvasMouseDown, hsome]

/-- Over base, banner and a third layer: a point outside all three selects
nothing, and the point (2, 2), inside all three, selects the third, whose z is
the highest. -/
theorem hitTest_outside_and_topmost_witness :
    hitTest asciiLower [] [sampleBase, sampleBanner, sampleTop] 9 9 = none ∧
      hitTest asciiLower [] [sampleBase, sampleBanner, sampleTop] 2 2 = some sampleTop :=
  ⟨((hitTest_outside_and_topmost asciiLower [] [sampleBase, sampleBanner, sampleTop] 9 9).1
      (by decide)).1,
    ((hitTest_outside_and_topmost asciiLower [] [sampleBase, sampleBanner, sampleTop] 2 2).2.2
      sampleTop (by decide) (by decide) (by decide) (by decide)).1⟩

/-! ## Hit order against render order -/

theorem strict_of_pairwise_nodup {l : List Layer} {R : Layer → Layer → Prop}
    (hR : l.Pairwise R) (hz : (l.map Layer.z).Nodup) :
    l.Pairwise (fun a b => R a b ∧ a.z ≠ b.z) := by
  have hne : l.Pairwise (fun a b => a.z ≠ b.z) := by
    rw [List.Nodup, List.pairwise_map] at hz
    exact hz
  exact hR.and hne

/-- C6, as stated, fails: after `moveLayerUp(2)` on the default layers the banner
and the text share z = 3, the hit order is not the reverse of the render order,
and the layer examined first is not the layer drawn last. -/
theorem sortedLayers_ne_reverse_renderOrder :
    sortedLayers (moveLayerUp addDefaultLayers 2) ≠
        (renderOrder (moveLayerUp addDefaultLayers 2)).reverse ∧
      (sortedLayers (moveLayerUp addDefaultLayers 2)).head? ≠
        (renderOrder (moveLayerUp addDefaultLayers 2)).getLast? := by
  decide

theorem head?_of_top {l : List Layer} {top : Layer} (hs : l.Pairwise (fun a b => b.z ≤ a.z))
    (hmem : top ∈ l) (hall : ∀ x ∈ l, x = top ∨ x.z < top.z) : l.head? = some top := by
  cases l with
  | nil => exact absurd hmem (List.not_mem_nil _)
  | cons a as =>
    rcases hall a (List.mem_cons_self _ _) with h | h
    · rw [h]
      rfl
    · exfalso
      rcases List.mem_cons.mp hmem with h2 | h2
      · rw [h2] at h
        exact lt_irrefl _ h
      · have := (List.pairwise_cons.mp hs).1 top h2
        omega

/-- C6, amended: the order in which the mouse-down scan examines the layers and
the order in which `render` draws them are the stable sorts of the stored list by
descending and by ascending z: permutations of each other, ordered by z, two
layers of equal z keeping their stored relative order in both.  When the z values
are pairwise distinct the scan order is exactly the reverse of the drawing order;
and when one layer has a z above every other layer's, it is both the layer
examined first and the layer drawn last. -/
theorem sortedLayers_eq_reverse_renderOrder (layers : List Layer) :
    (sortedLayers layers).Perm (renderOrder layers) ∧
      (sortedLayers layers).Pairwise (fun a b => b.z ≤ a.z) ∧
      (renderOrder layers).Pairwise (fun a b => a.z ≤ b.z) ∧
      (∀ a b : Layer, a.z = b.z → List.Sublist [a, b] layers →
        List.Sublist [a, b] (sortedLayers layers) ∧ List.Sublist [a, b] (renderOrder layers)) ∧
      ((layers.map Layer.z).Nodup → sortedLayers layers = (renderOrder layers).reverse) ∧
      ∀ top ∈ layers, (∀ l ∈ layers, l = top ∨ l.z < top.z) →
        (sortedLayers layers).head? = some top ∧ (renderOrder layers).getLast? = some top := by
  refine ⟨(sortedLayers_perm layers).trans (renderOrder_perm layers).symm,
    sortedLayers_pairwise layers, renderOrder_pairwise layers, ?_, ?_, ?_⟩
  · intro a b hab hsub
    constructor
    · have hr : (fun x y : Layer => y.z - x.z ≤ 0) a b := by
        show b.z - a.z ≤ 0
        omega
      exact List.pair_sublist_insertionSort hr hsub
    · have hr : (fun x y : Layer => x.z - y.z ≤ 0) a b := by
        show a.z - b.z ≤ 0
        omega
      exact List.pair_sublist_insertionSort hr hsub
  · intro hz
    haveI : IsAntisymm Layer (fun a b => b.z < a.z) :=
      ⟨fun a b h1 h2 => absurd h1 (not_lt.mpr (le_of_lt h2))⟩
    have hd : (sortedLayers layers).Pairwise (fun a b => b.z < a.z) := by
      have hz' : ((sortedLayers layers).map Layer.z).Nodup :=
        (((sortedLayers_perm layers).map Layer.z).nodup_iff).mpr hz
      refine (strict_of_pairwise_nodup (sortedLayers_pairwise layers) hz').imp ?_
      intro a b hab
      exact lt_of_le_of_ne hab.1 (fun h => hab.2 h.symm)
    have hr : (renderOrder layers).reverse.Pairwise (fun a b => b.z < a.z) := by
      have hz' : ((renderOrder layers).map Layer.z).Nodup :=
        (((renderOrder_perm layers).map Layer.z).nodup_iff).mpr hz
      rw [List.pairwise_reverse]
      refine (strict_of_pairwise_nodup (renderOrder_pairwise layers) hz').imp ?_
      intro a b hab
      exact lt_of_le_of_ne hab.1 hab.2
    have hp : (sortedLayers layers).Perm (renderOrder layers).reverse :=
      (sortedLayers_perm layers).trans
        ((renderOrder_perm layers).symm.trans (List.reverse_perm _).symm)
    exact List.eq_of_perm_of_sorted hp hd hr
  · intro top htop hall
    constructor
    · apply head?_of_top (sortedLayers_pairwise layers)
        ((sortedLayers_perm layers).mem_iff.mpr htop)
      intro x hx
      exact hall x ((sortedLayers_perm layers).mem_iff.mp hx)
    · rw [← List.head?_reverse]
      apply head?_of_top
      · rw [List.pairwise_reverse]
        exact renderOrder_pairwise layers
      · exact List.mem_reverse.mpr ((renderOrder_perm layers).mem_iff.mpr htop)
      · intro x hx
        exact hall x ((renderOrder_perm layers).mem_iff.mp (List.mem_reverse.mp hx))

/-- The default layers have z = 1, 2, 3: the scan examines them in the reverse of
the drawing order.  In the tied sample the banner and the lifted base share
z = 2: both orders keep the banner before the lifted base, and the banner, stored
first, is not above every other layer, yet after an upload the uploaded layer,
alone at the top, is examined first and drawn last. -/
theorem sortedLayers_eq_reverse_renderOrder_witness :
    sortedLayers addDefaultLayers = (renderOrder addDefaultLayers).reverse ∧
      (List.Sublist [sampleBanner, sampleLifted] (sortedLayers sampleTied) ∧
        List.Sublist [sampleBanner, sampleLifted] (renderOrder sampleTied)) ∧
      ((sortedLayers (sampleTied ++ [sampleTop])).head? = some sampleTop ∧
        (renderOrder (sampleTied ++ [sampleTop])).getLast? = some sampleTop) :=
  ⟨(sortedLayers_eq_reverse_renderOrder addDefaultLayers).2.2.2.2.1 (by decide),
    (sortedLayers_eq_reverse_renderOrder sampleTied).2.2.2.1 sampleBanner sampleLifted
      (by decide) (by decide),
    (sortedLayers_eq_reverse_renderOrder (sampleTied ++ [sampleTop])).2.2.2.2.2 sampleTop
      (by decide) (by decide)⟩

/-! ## Dragging -/

theorem toDouble_exact {v : Int} (h1 : -9007199254740992 ≤ v) (h2 : v ≤ 9007199254740992) :
    toDouble v = v := by
  unfold toDouble
  rw [if_pos (by omega)]

theorem toDouble_nonneg {v : Int} (h : 0 ≤ v) : 0 ≤ toDouble v := by
  unfold toDouble
  by_cases hb : v.natAbs ≤ 9007199254740992
  · rw [if_pos hb]
    exact h
  · rw [if_neg hb, if_pos h]
    exact Int.ofNat_nonneg _

theorem mathRoundTenth_eq_round (delta : Int) :
    mathRoundTenth delta = round ((delta : ℚ) / 10) := by
  rw [round_eq]
  have h : (delta : ℚ) / 10 + 1 / 2 = (((delta + 5 : ℤ) : ℚ)) / ((10 : ℕ) : ℚ) := by
    push_cast
    ring
  rw [h, Rat.floor_intCast_div_natCast]
  rfl

theorem handleCanvasMouseMove_free (st : DragState) (layer : Layer) (x y : Int)
    (hd : st.isDragging = true) (hs : st.selectedLayer = some layer)
    (hn : st.snapEnabled = false)
    (hdx : -9007199254740992 ≤ x - st.dragStart.1 ∧ x - st.dragStart.1 ≤ 9007199254740992)
    (hdy : -9007199254740992 ≤ y - st.dragStart.2 ∧ y - st.dragStart.2 ≤ 9007199254740992)
    (hlx : -9007199254740992 ≤ layer.x + (x - st.dragStart.1) ∧
      layer.x + (x - st.dragStart.1) ≤ 9007199254740992)
    (hly : -9007199254740992 ≤ layer.y + (y - st.dragStart.2) ∧
      layer.y + (y - st.dragStart.2) ≤ 9007199254740992) :
    handleCanvasMouseMove st x y =
      { st with
        selectedLayer := some
          { layer with
            x := layer.x + (x - st.dragStart.1)
            y := layer.y + (y - st.dragStart.2) }
        dragStart := (x, y) } := by
  have e1 : toDouble (x - st.dragStart.1) = x - st.dragStart.1 :=
    toDouble_exact (by omega) (by omega)
  have e2 : toDouble (y - st.dragStart.2) = y - st.dragStart.2 :=
    toDouble_exact (by omega) (by omega)
  have e3 : toDouble (layer.x + (x - st.dragStart.1)) = layer.x + (x - st.dragStart.1) :=
    toDouble_exact (by omega) (by omega)
  have e4 : toDouble (layer.y + (y - st.dragStart.2)) = layer.y + (y - st.dragStart.2) :=
    toDouble_exact (by omega) (by omega)
  simp [handleCanvasMouseMove, hd, hs, hn, e1, e2, e3, e4]

theorem dragThrough_free (points : List (Int × Int)) :
    ∀ (st : DragState) (layer : Layer) (x0 y0 : Int) (press : Int × Int),
      st.isDragging = true → st.selectedLayer = some layer → st.snapEnabled = false →
      (∀ p ∈ points, SafeCoordinate p.1 ∧ SafeCoordinate p.2) →
      SafeCoordinate x0 → SafeCoordinate y0 →
      SafeCoordinate press.1 → SafeCoordinate press.2 →
      SafeCoordinate st.dragStart.1 → SafeCoordinate st.dragStart.2 →
      layer.x = x0 + (st.dragStart.1 - press.1) → layer.y = y0 + (st.dragStart.2 - press.2) →
      dragThrough st points =
        { st with
          selectedLayer := some
            { layer with
              x := x0 + ((points.getLast?.getD st.dragStart).1 - press.1)
              y := y0 + ((points.getLast?.getD st.dragStart).2 - press.2) }
          dragStart := points.getLast?.getD st.dragStart } := by
  induction points with
  | nil =>
    intro st layer x0 y0 press _ hs _ _ _ _ _ _ _ _ hx hy
    cases st
    cases layer
    simp_all [dragThrough]
  | cons p ps ih =>
    intro st layer x0 y0 press hd hs hn hpts hx0 hy0 hp1 hp2 hs1 hs2 hx hy
    have hp := hpts p (List.mem_cons_self _ _)
    have hps : ∀ q ∈ ps, SafeCoordinate q.1 ∧ SafeCoordinate q.2 :=
      fun q hq => hpts q (List.mem_cons_of_mem _ hq)
    unfold SafeCoordinate at hx0 hy0 hp1 hp2 hs1 hs2 hp
    have hstep := handleCanvasMouseMove_free st layer p.1 p.2 hd hs hn
      (by omega) (by omega) (by omega) (by omega)
    have hfold : dragThrough st (p :: ps) = dragThrough (handleCanvasMouseMove st p.1 p.2) ps := rfl
    rw [hfold, hstep]
    have key := ih
      { st with
        selectedLayer := some
          { layer with x := layer.x + (p.1 - st.dragStart.1), y := layer.y + (p.2 - st.dragStart.2) }
        dragStart := (p.1, p.2) }
      { layer with x := layer.x + (p.1 - st.dragStart.1), y := layer.y + (p.2 - st.dragStart.2) }
      x0 y0 press hd rfl hn hps (by unfold SafeCoordinate; omega) (by unfold SafeCoordinate; omega)
      (by unfold SafeCoordinate; omega) (by unfold SafeCoordinate; omega)
      (by unfold SafeCoordinate; exact hp.1) (by unfold SafeCoordinate; exact hp.2)
      (by show layer.x + (p.1 - st.dragStart.1) = x0 + (p.1 - press.1); omega)
      (by show layer.y + (p.2 - st.dragStart.2) = y0 + (p.2 - press.2); omega)
    rw [key]
    simp only [List.getLast?_cons, Option.getD_some, Prod.mk.eta]

/-- C7, as stated, fails: a held banner at x = 2 ^ 53 (a value the position input
accepts) dragged one pixel to the right with snap off stays at x = 2 ^ 53,
because `x += 1` is a double addition, and so it does not move by the delta. -/
theorem handleCanvasMouseMove_far_stays :
    (handleCanvasMouseMove sampleFarDrag 3 2).selectedLayer =
        some { sampleBanner with x := 9007199254740992 } ∧
      (handleCanvasMouseMove sampleFarDrag 3 2).selectedLayer ≠
        some { sampleBanner with x := 9007199254740992 + (3 - 2) } := by
  decide

/-- C7, amended: for a held layer, an anchor and points whose coordinates are at
most 2 ^ 51 in magnitude, one mouse-move step adds the delta from the anchor to
the layer's position when snap is off and `round(delta/10)*10` per axis when
snap is on, and moves the anchor to the current point; with snap off a drag
through any list of such points moves the layer by last point minus press
point. -/
theorem handleCanvasMouseMove_drag (st : DragState) (layer : Layer) (x y : Int)
    (hd : st.isDragging = true) (hs : st.selectedLayer = some layer)
    (hlx : SafeCoordinate layer.x) (hly : SafeCoordinate layer.y)
    (hax : SafeCoordinate st.dragStart.1) (hay : SafeCoordinate st.dragStart.2)
    (hpx : SafeCoordinate x) (hpy : SafeCoordinate y) :
    (st.snapEnabled = false →
        handleCanvasMouseMove st x y =
          { st with
            selectedLayer := some
              { layer with
                x := layer.x + (x - st.dragStart.1)
                y := layer.y + (y - st.dragStart.2) }
            dragStart := (x, y) }) ∧
      (st.snapEnabled = true →
        handleCanvasMouseMove st x y =
          { st with
            selectedLayer := some
              { layer with
                x := layer.x + round (((x - st.dragStart.1 : ℤ) : ℚ) / 10) * 10
                y := layer.y + round (((y - st.dragStart.2 : ℤ) : ℚ) / 10) * 10 }
            dragStart := (x, y) }) ∧
      (st.snapEnabled = false →
        ∀ points : List (Int × Int), (∀ p ∈ points, SafeCoordinate p.1 ∧ SafeCoordinate p.2) →
          dragThrough st points =
            { st with
              selectedLayer := some
                { layer with
                  x := layer.x + ((points.getLast?.getD st.dragStart).1 - st.dragStart.1)
                  y := layer.y + ((points.getLast?.getD st.dragStart).2 - st.dragStart.2) }
              dragStart := points.getLast?.getD st.dragStart }) := by
  have hlx' := hlx
  have hly' := hly
  have hax' := hax
  have hay' := hay
  have hpx' := hpx
  have hpy' := hpy
  unfold SafeCoordinate at hlx' hly' hax' hay' hpx' hpy'
  refine ⟨?_, ?_, ?_⟩
  · intro hn
    exact handleCanvasMouseMove_free st layer x y hd hs hn (by omega) (by omega) (by omega)
      (by omega)
  · intro hn
    rw [← mathRoundTenth_eq_round, ← mathRoundTenth_eq_round]
    have e1 : toDouble (x - st.dragStart.1) = x - st.dragStart.1 :=
      toDouble_exact (by omega) (by omega)
    have e2 : toDouble (y - st.dragStart.2) = y - st.dragStart.2 :=
      toDouble_exact (by omega) (by omega)
    have r1 : mathRoundTenth (x - st.dragStart.1) * 10 ≤ (x - st.dragStart.1) + 5 ∧
        (x - st.dragStart.1) - 5 ≤ mathRoundTenth (x - st.dragStart.1) * 10 := by
      unfold mathRoundTenth
      omega
    have r2 : mathRoundTenth (y - st.dragStart.2) * 10 ≤ (y - st.dragStart.2) + 5 ∧
        (y - st.dragStart.2) - 5 ≤ mathRoundTenth (y - st.dragStart.2) * 10 := by
      unfold mathRoundTenth
      omega
    have e3 : toDouble (mathRoundTenth (x - st.dragStart.1) * 10) =
        mathRoundTenth (x - st.dragStart.1) * 10 := toDouble_exact (by omega) (by omega)
    have e4 : toDouble (mathRoundTenth (y - st.dragStart.2) * 10) =
        mathRoundTenth (y - st.dragStart.2) * 10 := toDouble_exact (by omega) (by omega)
    have e5 : toDouble (layer.x + mathRoundTenth (x - st.dragStart.1) * 10) =
        layer.x + mathRoundTenth (x - st.dragStart.1) * 10 :=
      toDouble_exact (by omega) (by omega)
    have e6 : toDouble (layer.y + mathRoundTenth (y - st.dragStart.2) * 10) =
        layer.y + mathRoundTenth (y - st.dragStart.2) * 10 :=
      toDouble_exact (by omega) (by omega)
    simp [handleCanvasMouseMove, hd, hs, hn, e1, e2, e3, e4, e5, e6]
  · intro hn points hpts
    have key := dragThrough_free points st layer layer.x layer.y st.dragStart hd hs hn hpts
      hlx hly hax hay hax hay (by omega) (by omega)
    exact key

/-- The sample banner, pressed at (2, 2) and dragged through (5, 3) to (9, 9)
with snap off, moves by (7, 7); one snapped step to (17, -3) moves it by the
rounded delta. -/
theorem handleCanvasMouseMove_drag_witness :
    dragThrough sampleDrag [(5, 3), (9, 9)] =
        { sampleDrag with
          selectedLayer := some
            { sampleBanner with x := sampleBanner.x + (9 - 2), y := sampleBanner.y + (9 - 2) }
          dragStart := (9, 9) } ∧
      handleCanvasMouseMove sampleSnapDrag 17 (-3) =
        { sampleSnapDrag with
          selectedLayer := some
            { sampleBanner with
              x := sampleBanner.x + round ((((17 : ℤ) - 2 : ℤ) : ℚ) / 10) * 10
              y := sampleBanner.y + round ((((-3 : ℤ) - 2 : ℤ) : ℚ) / 10) * 10 }
          dragStart := (17, -3) } :=
  ⟨(handleCanvasMouseMove_drag sampleDrag sampleBanner 0 0 rfl rfl (by decide) (by decide)
      (by decide) (by decide) (by decide) (by decide)).2.2 rfl [(5, 3), (9, 9)] (by decide),
    (handleCanvasMouseMove_drag sampleSnapDrag sampleBanner 17 (-3) rfl rfl (by decide)
      (by decide) (by decide) (by decide) (by decide) (by decide)).2.1 rfl⟩

/-! ## Layer operations -/

theorem modifyFirst_append (p : Layer → Bool) (f : Layer → Layer) (pre post : List Layer)
    (a : Layer) (hpre : ∀ l ∈ pre, p l = false) (ha : p a = true) :
    modifyFirst p f (pre ++ a :: post) = pre ++ f a :: post := by
  induction pre with
  | nil => simp [modifyFirst, ha]
  | cons b bs ih =>
    have hb : p b = false := hpre b (List.mem_cons_self _ _)
    have hbs : ∀ l ∈ bs, p l = false := fun l hl => hpre l (List.mem_cons_of_mem _ hl)
    simp [modifyFirst, hb, ih hbs]

theorem find?_split {p : Layer → Bool} {layers : List Layer} {a : Layer}
    (h : layers.find? p = some a) :
    p a = true ∧ ∃ pre post, layers = pre ++ a :: post ∧ ∀ l ∈ pre, p l = false := by
  obtain ⟨hp, pre, post, hsplit, hpre⟩ := List.find?_eq_some.mp h
  refine ⟨hp, pre, post, hsplit, fun l hl => ?_⟩
  have := hpre l hl
  simpa using this

/-- C8, as stated, fails: a banner whose z input was 2 ^ 54 has z > 0, and
`moveLayerDown` leaves the whole list, and so that z, as it was: `layer.z--` is a
double subtraction and 2 ^ 54 - 1 rounds back to 2 ^ 54. -/
theorem moveLayerDown_far_stays :
    ((updateBannerZ addDefaultLayers 18014398509481984).find? (fun l => l.id == 2)).map
        Layer.z = some 18014398509481984 ∧
      moveLayerDown (updateBannerZ addDefaultLayers 18014398509481984) 2 =
        updateBannerZ addDefaultLayers 18014398509481984 := by
  decide

/-- C8, amended: `moveLayerDown` on a layer whose z is 0 leaves the layer list as
it is; on a layer whose z is positive and at most 2 ^ 53 it replaces that layer
by one with z lowered by exactly 1 (and re-sorts); and a layer of negative z in
its result was already in the list, so it never produces a negative z. -/
theorem moveLayerDown_floor (layers : List Layer) (id : Nat) :
    (∀ layer, layers.find? (fun l => l.id == id) = some layer → layer.z = 0 →
        moveLayerDown layers id = layers) ∧
      (∀ layer, layers.find? (fun l => l.id == id) = some layer → 0 < layer.z →
        layer.z ≤ 9007199254740992 →
        ∃ pre post, layers = pre ++ layer :: post ∧ (∀ l ∈ pre, l.id ≠ id) ∧
          moveLayerDown layers id =
            sortLayers (pre ++ { layer with z := layer.z - 1 } :: post) ∧
          (moveLayerDown layers id).Perm (pre ++ { layer with z := layer.z - 1 } :: post)) ∧
      ∀ l ∈ moveLayerDown layers id, l.z < 0 → l ∈ layers := by
  refine ⟨?_, ?_, ?_⟩
  · intro layer hf hz
    simp [moveLayerDown, hf, hz]
  · intro layer hf hz hb
    obtain ⟨hp, pre, post, hsplit, hpre⟩ := find?_split hf
    have hexact : toDouble (layer.z - 1) = layer.z - 1 := toDouble_exact (by omega) (by omega)
    have hmod : modifyFirst (fun l => l.id == id) (fun l => { l with z := toDouble (l.z - 1) })
        layers = pre ++ { layer with z := layer.z - 1 } :: post := by
      rw [hsplit, modifyFirst_append _ _ pre post layer hpre hp, hexact]
    have hres : moveLayerDown layers id =
        sortLayers (pre ++ { layer with z := layer.z - 1 } :: post) := by
      simp only [moveLayerDown, hf, gt_iff_lt, hz, if_true, hmod]
    refine ⟨pre, post, hsplit, ?_, hres, ?_⟩
    · intro l hl
      have := hpre l hl
      simpa using this
    · rw [hres]
      exact sortLayers_perm _
  · intro l hl hneg
    cases hf : layers.find? (fun l => l.id == id) with
    | none =>
      simp only [moveLayerDown, hf] at hl
      exact hl
    | some layer =>
      by_cases hz : 0 < layer.z
      · obtain ⟨hp, pre, post, hsplit, hpre⟩ := find?_split hf
        have hmod : modifyFirst (fun l => l.id == id)
            (fun l => { l with z := toDouble (l.z - 1) }) layers =
            pre ++ { layer with z := toDouble (layer.z - 1) } :: post := by
          rw [hsplit]
          exact modifyFirst_append _ _ pre post layer hpre hp
        simp only [moveLayerDown, hf, gt_iff_lt, hz, if_true, hmod] at hl
        have hl' := (sortLayers_perm _).mem_iff.mp hl
        rw [hsplit]
        rcases List.mem_append.mp hl' with h1 | h1
        · exact List.mem_append_left _ h1
        · rcases List.mem_cons.mp h1 with h2 | h2
          · exfalso
            rw [h2] at hneg
            have hnn : 0 ≤ toDouble (layer.z - 1) := toDouble_nonneg (by omega)
            simp only at hneg
            omega
          · exact List.mem_append_right _ (List.mem_cons_of_mem _ h2)
      · simp only [moveLayerDown, hf, gt_iff_lt, hz, if_false] at hl
        exact hl

/-- Moving down a layer at z = 0 changes nothing; moving the banner (z = 2) down
puts a banner of z = 1 in the list. -/
theorem moveLayerDown_floor_witness :
    moveLayerDown [sampleGround, sampleBanner] 1 = [sampleGround, sampleBanner] ∧
      ∃ pre post, [sampleGround, sampleBanner] = pre ++ sampleBanner :: post ∧
        (∀ l ∈ pre, l.id ≠ 2) ∧
        moveLayerDown [sampleGround, sampleBanner] 2 =
          sortLayers (pre ++ { sampleBanner with z := sampleBanner.z - 1 } :: post) ∧
        (moveLayerDown [sampleGround, sampleBanner] 2).Perm
          (pre ++ { sampleBanner with z := sampleBanner.z - 1 } :: post) :=
  ⟨(moveLayerDown_floor [sampleGround, sampleBanner] 1).1 sampleGround (by decide) (by decide),
    (moveLayerDown_floor [sampleGround, sampleBanner] 2).2.1 sampleBanner (by decide)
      (by decide) (by decide)⟩

/-! ## Identifiers along a session -/

theorem map_id_modifyFirst (p : Layer → Bool) (f : Layer → Layer)
    (hf : ∀ l, p l = true → (f l).id = l.id) (layers : List Layer) :
    (modifyFirst p f layers).map Layer.id = layers.map Layer.id := by
  induction layers with
  | nil => rfl
  | cons a as ih =>
    by_cases ha : p a = true
    · simp [modifyFirst, ha, hf a ha]
    · simp [modifyFirst, ha, ih]

theorem map_id_sortLayers (layers : List Layer) :
    ((sortLayers layers).map Layer.id).Perm (layers.map Layer.id) :=
  (sortLayers_perm layers).map Layer.id

theorem map_id_dragLayer (layers : List Layer) (index : Nat) (deltaX deltaY : Int) :
    (dragLayer layers index deltaX deltaY).map Layer.id = layers.map Layer.id := by
  unfold dragLayer
  cases h : layers[index]? with
  | none => rfl
  | some layer =>
    simp only
    induction layers generalizing index with
    | nil => rfl
    | cons a as ih =>
      cases index with
      | zero =>
        simp only [List.getElem?_cons_zero, Option.some.injEq] at h
        subst h
        simp
      | succ n =>
        simp only [List.getElem?_cons_succ] at h
        simp [ih n h]

theorem map_id_loadProject (project : List SavedLayer) :
    ∀ layers : List Layer, (loadProject project layers).map Layer.id = layers.map Layer.id := by
  induction project with
  | nil => intro layers; rfl
  | cons saved rest ih =>
    intro layers
    have hstep : loadProject (saved :: rest) layers =
        loadProject rest
          (match layers.find? (fun l => l.id == saved.id) with
            | some _ => modifyFirst (fun l => l.id == saved.id) (fun l => assignSaved l saved) layers
            | none => layers) := rfl
    rw [hstep, ih]
    cases layers.find? (fun l => l.id == saved.id) with
    | none => rfl
    | some _ =>
      simp only
      apply map_id_modifyFirst
      intro l hl
      simp only [beq_iff_eq] at hl
      simp [assignSaved, hl]

theorem map_id_step_subperm (layers : List Layer) (e : Event)
    (he : ∀ now name img, e ≠ Event.customLayer now name img) :
    ((step layers e).map Layer.id).Subperm (layers.map Layer.id) := by
  cases e with
  | customLayer now name img => exact absurd rfl (he now name img)
  | delete id =>
    exact (List.Sublist.map Layer.id (List.filter_sublist layers)).subperm
  | moveUp id =>
    simp only [step, moveLayerUp]
    cases layers.find? (fun l => l.id == id) with
    | none => exact List.Perm.subperm (List.Perm.refl _)
    | some _ =>
      refine List.Perm.subperm ((map_id_sortLayers _).trans (List.Perm.of_eq ?_))
      apply map_id_modifyFirst
      intro l _
      rfl
  | moveDown id =>
    simp only [step, moveLayerDown]
    cases layers.find? (fun l => l.id == id) with
    | none => exact List.Perm.subperm (List.Perm.refl _)
    | some layer =>
      by_cases hz : layer.z > 0
      · simp only [hz, if_true]
        refine List.Perm.subperm ((map_id_sortLayers _).trans (List.Perm.of_eq ?_))
        apply map_id_modifyFirst
        intro l _
        rfl
      · simp only [hz, if_false]
        exact List.Perm.subperm (List.Perm.refl _)
  | bannerZ z =>
    simp only [step, updateBannerZ]
    cases layers.find? (fun l => l.type == LayerType.banner) with
    | none => exact List.Perm.subperm (List.Perm.refl _)
    | some _ =>
      refine List.Perm.subperm ((map_id_sortLayers _).trans (List.Perm.of_eq ?_))
      apply map_id_modifyFirst
      intro l _
      rfl
  | textZ z =>
    simp only [step, updateTextZ]
    cases layers.find? (fun l => l.type == LayerType.text) with
    | none => exact List.Perm.subperm (List.Perm.refl _)
    | some _ =>
      refine List.Perm.subperm ((map_id_sortLayers _).trans (List.Perm.of_eq ?_))
      apply map_id_modifyFirst
      intro l _
      rfl
  | toggleVisibility id =>
    simp only [step, toggleLayerVisibility]
    cases layers.find? (fun l => l.id == id) with
    | none => exact List.Perm.subperm (List.Perm.refl _)
    | some _ =>
      simp only
      refine List.Perm.subperm (List.Perm.of_eq ?_)
      apply map_id_modifyFirst
      intro l _
      rfl
  | drag index deltaX deltaY =>
    simp only [step, map_id_dragLayer]
    exact List.Perm.subperm (List.Perm.refl _)
  | load project =>
    simp only [step, map_id_loadProject]
    exact List.Perm.subperm (List.Perm.refl _)

theorem nodup_of_subperm {l₁ l₂ : List Nat} (h : l₁.Subperm l₂) (hn : l₂.Nodup) : l₁.Nodup := by
  obtain ⟨l, hp, hs⟩ := h
  exact hp.nodup_iff.mp (hn.sublist hs)

theorem uploadTimes_cons_other (e : Event) (rest : List Event)
    (he : ∀ now name img, e ≠ Event.customLayer now name img) :
    uploadTimes (e :: rest) = uploadTimes rest := by
  cases e with
  | customLayer now name img => exact absurd rfl (he now name img)
  | _ => rfl

theorem ids_foldl_step (events : List Event) :
    ∀ (layers : List Layer) (pool : List Nat), (layers.map Layer.id).Nodup →
      layers.map Layer.id ⊆ pool → (pool ++ uploadTimes events).Nodup →
      ((events.foldl step layers).map Layer.id).Nodup ∧
        (events.foldl step layers).map Layer.id ⊆ pool ++ uploadTimes events := by
  induction events with
  | nil =>
    intro layers pool hn hsub _
    exact ⟨hn, fun i hi => List.mem_append_left _ (hsub hi)⟩
  | cons e rest ih =>
    intro layers pool hn hsub hpool
    by_cases he : ∃ now name img, e = Event.customLayer now name img
    · obtain ⟨now, name, img, rfl⟩ := he
      have hids : (step layers (Event.customLayer now name img)).map Layer.id =
          layers.map Layer.id ++ [now] := by
        simp [step, handleCustomLayer]
      have hpool' : ((pool ++ [now]) ++ uploadTimes rest).Nodup := by
        simpa [uploadTimes, List.append_assoc] using hpool
      have hnow : now ∉ pool := by
        have h1 : (pool ++ now :: uploadTimes rest).Nodup := hpool
        rw [List.nodup_append] at h1
        intro hmem
        exact h1.2.2 hmem (List.mem_cons_self _ _)
      have hn' : ((step layers (Event.customLayer now name img)).map Layer.id).Nodup := by
        rw [hids, List.nodup_append]
        refine ⟨hn, List.nodup_singleton _, ?_⟩
        intro i hi hi'
        rw [List.mem_singleton] at hi'
        subst hi'
        exact hnow (hsub hi)
      have hsub' : (step layers (Event.customLayer now name img)).map Layer.id ⊆ pool ++ [now] := by
        rw [hids]
        intro i hi
        rcases List.mem_append.mp hi with h1 | h1
        · exact List.mem_append_left _ (hsub h1)
        · exact List.mem_append_right _ h1
      have key := ih _ (pool ++ [now]) hn' hsub' hpool'
      simpa [uploadTimes, List.append_assoc] using key
    · have he' : ∀ now name img, e ≠ Event.customLayer now name img :=
        fun now name img h => he ⟨now, name, img, h⟩
      have hsp := map_id_step_subperm layers e he'
      have hpool' : (pool ++ uploadTimes rest).Nodup := by
        rw [← uploadTimes_cons_other e rest he']
        exact hpool
      have key := ih (step layers e) pool (nodup_of_subperm hsp hn)
        (fun i hi => hsub (hsp.subset hi)) hpool'
      rw [uploadTimes_cons_other e rest he']
      exact key

/-- C9, as stated, fails: two uploads that read the same `Date.now()` value leave
two layers with the same id in `state.layers`. -/
theorem run_ids_collide :
    ¬ ((run [Event.customLayer 1762300800000 "logo" sampleImage,
          Event.customLayer 1762300800000 "star" sampleImage]).map Layer.id).Nodup := by
  decide

/-- C9, amended: when the `Date.now()` readings taken by the uploads of a session
are pairwise distinct and none of them is 1, 2 or 3, no two layers of
`state.layers` have the same id after the session, and every id there is a
default id or one of those readings. -/
theorem run_ids_nodup (events : List Event)
    (hclock : (1 :: 2 :: 3 :: uploadTimes events).Nodup) :
    ((run events).map Layer.id).Nodup ∧
      (run events).map Layer.id ⊆ 1 :: 2 :: 3 :: uploadTimes events := by
  have h := ids_foldl_step events addDefaultLayers [1, 2, 3] (by decide)
    (by decide) hclock
  exact h

/-- A session with two uploads one millisecond apart, z moves, a deletion, a drag
and a project load. -/
theorem run_ids_nodup_witness :
    ((run [Event.customLayer 1762300800000 "logo" sampleImage, Event.moveUp 1,
          Event.customLayer 1762300800001 "star" sampleImage, Event.moveDown 3,
          Event.delete 1762300800000, Event.drag 0 5 (-5), Event.toggleVisibility 2,
          Event.load (saveProject addDefaultLayers)]).map Layer.id).Nodup :=
  (run_ids_nodup _ (by decide)).1

/-! ## Project round trip -/

theorem modifyFirst_eq_map (k : Nat) (f : Layer → Layer) (layers : List Layer)
    (hn : (layers.map Layer.id).Nodup) :
    modifyFirst (fun l => l.id == k) f layers =
      layers.map (fun l => if l.id = k then f l else l) := by
  induction layers with
  | nil => rfl
  | cons a as ih =>
    rw [List.map_cons, List.nodup_cons] at hn
    by_cases ha : a.id = k
    · have hrest : as.map (fun l => if l.id = k then f l else l) = as := by
        conv_rhs => rw [← List.map_id as]
        apply List.map_congr_left
        intro l hl
        have hne : l.id ≠ k := by
          intro h
          exact hn.1 (by rw [ha, ← h]; exact List.mem_map_of_mem _ hl)
        simp [hne]
      simp [modifyFirst, ha, hrest]
    · simp [modifyFirst, ha, ih hn.2]

theorem loadStep_eq_map (saved : SavedLayer) (layers : List Layer)
    (hn : (layers.map Layer.id).Nodup) :
    (match layers.find? (fun l => l.id == saved.id) with
      | some _ => modifyFirst (fun l => l.id == saved.id) (fun l => assignSaved l saved) layers
      | none => layers) =
      layers.map (fun l => if l.id = saved.id then assignSaved l saved else l) := by
  cases hf : layers.find? (fun l => l.id == saved.id) with
  | some _ => exact modifyFirst_eq_map saved.id _ layers hn
  | none =>
    simp only
    rw [List.find?_eq_none] at hf
    conv_lhs => rw [← List.map_id layers]
    apply List.map_congr_left
    intro l hl
    have hne : l.id ≠ saved.id := by
      have := hf l hl
      simpa using this
    simp [hne]

theorem loadProject_eq_map (project : List SavedLayer) :
    ∀ layers : List Layer, (layers.map Layer.id).Nodup →
      loadProject project layers =
        layers.map (fun l =>
          project.foldl (fun acc saved => if acc.id = saved.id then assignSaved acc saved else acc)
            l) := by
  induction project with
  | nil =>
    intro layers _
    simp [loadProject]
  | cons saved rest ih =>
    intro layers hn
    have hstep : loadProject (saved :: rest) layers =
        loadProject rest
          (match layers.find? (fun l => l.id == saved.id) with
            | some _ => modifyFirst (fun l => l.id == saved.id) (fun l => assignSaved l saved) layers
            | none => layers) := rfl
    rw [hstep, loadStep_eq_map saved layers hn]
    have hn' : ((layers.map (fun l => if l.id = saved.id then assignSaved l saved else l)).map
        Layer.id).Nodup := by
      have he : (layers.map (fun l => if l.id = saved.id then assignSaved l saved else l)).map
          Layer.id = layers.map Layer.id := by
        rw [List.map_map]
        apply List.map_congr_left
        intro l _
        by_cases h : l.id = saved.id
        · simp [h, assignSaved]
        · simp [h]
      rw [he]
      exact hn
    rw [ih _ hn', List.map_map]
    rfl

theorem restore_data (project : List SavedLayer) :
    ∀ l : Layer,
      (project.foldl (fun acc saved => if acc.id = saved.id then assignSaved acc saved else acc)
        l).data = l.data := by
  induction project with
  | nil => intro l; rfl
  | cons d ds ih =>
    intro l
    rw [List.foldl_cons, ih]
    by_cases h : l.id = d.id
    · simp [h, assignSaved]
    · simp [h]

theorem restore_none (project : List SavedLayer) :
    ∀ l : Layer, (∀ sv ∈ project, sv.id ≠ l.id) →
      project.foldl (fun acc saved => if acc.id = saved.id then assignSaved acc saved else acc)
        l = l := by
  induction project with
  | nil => intro l _; rfl
  | cons d ds ih =>
    intro l h
    have hd : l.id ≠ d.id := fun e => h d (List.mem_cons_self _ _) e.symm
    rw [List.foldl_cons, if_neg hd]
    exact ih l (fun sv hsv => h sv (List.mem_cons_of_mem _ hsv))

theorem restore_some (project : List SavedLayer) :
    ∀ (l : Layer) (sv : SavedLayer), (project.map SavedLayer.id).Nodup → sv ∈ project →
      sv.id = l.id →
      project.foldl (fun acc saved => if acc.id = saved.id then assignSaved acc saved else acc)
        l = assignSaved l sv := by
  induction project with
  | nil => intro l sv _ hsv; exact absurd hsv (List.not_mem_nil _)
  | cons d ds ih =>
    intro l sv hn hsv hid
    rw [List.map_cons, List.nodup_cons] at hn
    rw [List.foldl_cons]
    by_cases hd : l.id = d.id
    · rw [if_pos hd]
      have hsvd : sv = d := by
        rcases List.mem_cons.mp hsv with h | h
        · exact h
        · exfalso
          apply hn.1
          rw [← hd, ← hid]
          exact List.mem_map_of_mem _ h
      subst hsvd
      apply restore_none
      intro x hx hxid
      apply hn.1
      have : (assignSaved l sv).id = sv.id := rfl
      rw [this] at hxid
      rw [← hxid]
      exact List.mem_map_of_mem _ hx
    · rw [if_neg hd]
      have hmem : sv ∈ ds := by
        rcases List.mem_cons.mp hsv with h | h
        · exfalso
          rw [h] at hid
          exact hd hid.symm
        · exact h
      exact ih l sv hn.2 hmem hid

/-- C10, as stated, fails.  With two layers of the same id the document's two
entries both land on the first of them, so without any mutation the first one
takes the second one's position (x = 7 instead of 0); and a colour given to the
base layer after the save stays after the load, the document holding no colour
for that layer. -/
theorem loadProject_saveProject_not_restored :
    ((loadProject (saveProject sampleClash) sampleClash)[3]?.map Layer.x = some 7 ∧
        sampleClash[3]?.map Layer.x = some 0) ∧
      ((loadProject (saveProject addDefaultLayers)
          (loadProject sampleForeign addDefaultLayers))[0]?.map Layer.color =
            some (Color.str "#ff0000") ∧
        addDefaultLayers[0]?.map Layer.color = some Color.undefined) := by
  decide

/-- C10, amended: when the saved layers have pairwise distinct ids and so have
the live layers, `loadProject` on the document of `saveProject` leaves every live
layer its raster, and gives every live layer whose id was saved the saved
visible, x, y and z, and the saved color, text and spacing where the layer had
that property at save time (a property it lacked then keeps its live value). -/
theorem loadProject_saveProject (layers live : List Layer)
    (hs : (layers.map Layer.id).Nodup) (hl : (live.map Layer.id).Nodup) :
    List.Forall₂
      (fun before after =>
        after.data = before.data ∧
          ∀ s ∈ layers, s.id = before.id →
            after.visible = s.visible ∧ after.x = s.x ∧ after.y = s.y ∧ after.z = s.z ∧
              (s.color ≠ Color.undefined → after.color = s.color) ∧
              (s.text ≠ none → after.text = s.text) ∧
              (s.spacing ≠ none → after.spacing = s.spacing) ∧
              (s.color = Color.undefined → after.color = before.color) ∧
              (s.text = none → after.text = before.text) ∧
              (s.spacing = none → after.spacing = before.spacing))
      live (loadProject (saveProject layers) live) := by
  rw [loadProject_eq_map _ live hl]
  simp only [List.forall₂_map_right_iff, List.forall₂_same]
  intro l _
  refine ⟨restore_data _ l, ?_⟩
  intro s hsmem hsid
  have hdoc : ((saveProject layers).map SavedLayer.id).Nodup := by
    have : (saveProject layers).map SavedLayer.id = layers.map Layer.id := by
      simp [saveProject, saveLayer, List.map_map, Function.comp_def]
    rw [this]
    exact hs
  have hmem : saveLayer s ∈ saveProject layers := List.mem_map_of_mem _ hsmem
  rw [restore_some _ l (saveLayer s) hdoc hmem hsid]
  refine ⟨rfl, rfl, rfl, rfl, ?_, ?_, ?_, ?_, ?_, ?_⟩
  · intro hc
    cases hcol : s.color <;> simp_all [assignSaved, saveLayer]
  · intro ht
    cases htx : s.text <;> simp_all [assignSaved, saveLayer]
  · intro hsp
    cases hspc : s.spacing <;> simp_all [assignSaved, saveLayer]
  · intro hc
    simp [assignSaved, saveLayer, hc]
  · intro ht
    simp [assignSaved, saveLayer, ht]
  · intro hsp
    simp [assignSaved, saveLayer, hsp]

/-- The default layers are saved, then dragged, moved in z and hidden; the load
keeps the three layers in place. -/
theorem loadProject_saveProject_witness :
    (loadProject (saveProject addDefaultLayers) sampleEdited).length = sampleEdited.length :=
  (loadProject_saveProject addDefaultLayers sampleEdited (by decide) (by decide)).length_eq.symm

/-! ## Text layout -/

theorem foldl_renderTextStep (lower : Char → String) (letters : GlyphSet) (color : String)
    (spacing y : Int) (chars : List Char) :
    ∀ (cursor : Int) (draws : List Draw),
      chars.foldl (renderTextStep lower letters color spacing y) (cursor, draws) =
        (layoutCursor lower letters spacing cursor chars,
          draws ++ (layoutGlyphs lower letters spacing cursor chars).map
            (fun g => { image := applyColorWithShading g.1 color, x := g.2, y := y })) := by
  induction chars with
  | nil =>
    intro cursor draws
    simp [layoutCursor, layoutGlyphs]
  | cons c rest ih =>
    intro cursor draws
    rw [List.foldl_cons]
    cases hg : letterImg lower letters c with
    | some img =>
      simp only [renderTextStep, hg, layoutCursor, layoutGlyphs]
      rw [ih]
      simp
    | none =>
      by_cases hc : c = ' '
      · subst hc
        simp only [renderTextStep, hg, if_true, layoutCursor, layoutGlyphs]
        rw [ih]
      · simp only [renderTextStep, hg, hc, if_false, layoutCursor, layoutGlyphs]
        rw [ih]

/-- C11: `renderText` takes the characters left to right from the cursor
`layer.x`; a character whose lower-cased form has a glyph is drawn (tinted) at
the cursor and advances it by glyph width + spacing, a space without glyph draws
nothing and advances by 10 + spacing, any other character without glyph draws
nothing and leaves the cursor; with empty text or an empty glyph set nothing is
drawn. -/
theorem renderText_layout (lower : Char → String) (letters : GlyphSet) (layer : Layer) :
    (∀ (color : String) (spacing y : Int) (acc : Int × List Draw) (char : Char) (img : Image),
        letterImg lower letters char = some img →
        renderTextStep lower letters color spacing y acc char =
          (acc.1 + ((img.width : Int) + spacing),
            acc.2 ++ [{ image := applyColorWithShading img color, x := acc.1, y := y }])) ∧
      (∀ (color : String) (spacing y : Int) (acc : Int × List Draw),
        letterImg lower letters ' ' = none →
        renderTextStep lower letters color spacing y acc ' ' = (acc.1 + (10 + spacing), acc.2)) ∧
      (∀ (color : String) (spacing y : Int) (acc : Int × List Draw) (char : Char),
        letterImg lower letters char = none → char ≠ ' ' →
        renderTextStep lower letters color spacing y acc char = acc) ∧
      renderTextLoop lower letters layer =
        (layoutCursor lower letters (layer.spacing.getD 0) layer.x (layer.text.getD "").data,
          (layoutGlyphs lower letters (layer.spacing.getD 0) layer.x (layer.text.getD "").data).map
            (fun g =>
              { image := applyColorWithShading g.1 (colorOrWhite layer.color), x := g.2,
                y := layer.y })) ∧
      renderText lower letters layer =
        (if layer.text.getD "" = "" ∨ letters = [] then []
          else
            (layoutGlyphs lower letters (layer.spacing.getD 0) layer.x
              (layer.text.getD "").data).map
              (fun g =>
                { image := applyColorWithShading g.1 (colorOrWhite layer.color), x := g.2,
                  y := layer.y })) ∧
      (layer.text.getD "" = "" ∨ letters = [] → renderText lower letters layer = []) := by
  have hloop : renderTextLoop lower letters layer =
      (layoutCursor lower letters (layer.spacing.getD 0) layer.x (layer.text.getD "").data,
        (layoutGlyphs lower letters (layer.spacing.getD 0) layer.x (layer.text.getD "").data).map
          (fun g =>
            { image := applyColorWithShading g.1 (colorOrWhite layer.color), x := g.2,
              y := layer.y })) := by
    unfold renderTextLoop
    rw [foldl_renderTextStep]
    simp
  have hcond : (layer.text.getD "" = "" || letters.isEmpty) = true ↔
      (layer.text.getD "" = "" ∨ letters = []) := by
    simp [List.isEmpty_iff]
  refine ⟨?_, ?_, ?_, hloop, ?_, ?_⟩
  · intro color spacing y acc char img hg
    simp only [renderTextStep, hg]
  · intro color spacing y acc hg
    simp only [renderTextStep, hg, if_true]
  · intro color spacing y acc char hg hc
    simp only [renderTextStep, hg, hc, if_false]
  · unfold renderText
    by_cases h : layer.text.getD "" = "" ∨ letters = []
    · rw [if_pos (hcond.mpr h), if_pos h]
    · rw [if_neg (fun hh => h (hcond.mp hh)), if_neg h, hloop]
  · intro h
    unfold renderText
    rw [if_pos (hcond.mpr h)]

/-- The text `AB ` with the single glyph `a` of width 10: one draw, of the tinted
`a`, at the layer's own position. -/
theorem renderText_layout_witness :
    renderText asciiLower [("a", sampleGlyph)] sampleText =
      [{ image := applyColorWithShading sampleGlyph "#ff0000", x := 7, y := 3 }] :=
  (renderText_layout asciiLower [("a", sampleGlyph)] sampleText).2.2.2.2.1.trans (by decide)

/-! ## The text box of hit-testing -/

theorem foldl_textBox (lower : Char → String) (letters : GlyphSet) (spacing : Int)
    (chars : List Char) :
    ∀ (w h : Int), 0 ≤ h →
      chars.foldl
          (fun box char =>
            match letterImg lower letters char with
            | some img => (box.1 + ((img.width : Int) + spacing), max box.2 (img.height : Int))
            | none => box)
          (w, h) =
        (w + ((chars.filterMap (letterImg lower letters)).map
              (fun img => (img.width : Int) + spacing)).sum,
          max h (((chars.filterMap (letterImg lower letters)).map
              (fun img => (img.height : Int))).foldr max 0)) := by
  induction chars with
  | nil =>
    intro w h hh
    simp [hh]
  | cons c rest ih =>
    intro w h hh
    rw [List.foldl_cons]
    cases hg : letterImg lower letters c with
    | some img =>
      simp only [List.filterMap_cons, hg, List.map_cons, List.sum_cons, List.foldr_cons]
      rw [ih _ _ (le_max_of_le_left hh)]
      rw [max_assoc, add_assoc]
    | none =>
      simp only [List.filterMap_cons, hg]
      exact ih w h hh

theorem textBox_eq_layoutBox (lower : Char → String) (letters : GlyphSet) (text : String)
    (spacing : Int) :
    textBox lower letters text spacing = layoutBox lower letters text spacing := by
  unfold textBox layoutBox glyphsOf
  rw [foldl_textBox lower letters spacing text.data 0 0 (le_refl 0)]
  have hnn : ∀ l : List Int, 0 ≤ l.foldr max 0 := by
    intro l
    induction l with
    | nil => exact le_refl 0
    | cons a as ih => exact le_max_of_le_right ih
  rw [zero_add, max_eq_right (hnn _)]

/-- C12, as stated, fails: for the text `AB ` with the single glyph `a` of width
10 and height 5 and spacing 3, the box of `isPointInLayer` is 13 wide, not 10. -/
theorem textBox_width_counts_spacing :
    textBox asciiLower [("a", sampleGlyph)] "AB " 3 = (13, 5) ∧
      textBox asciiLower [("a", sampleGlyph)] "AB " 3 ≠ (10, 5) := by
  decide

/-- C12, amended: the box `isPointInLayer` uses for a text layer has, over the
characters that have a glyph, width equal to the sum of glyph width + spacing and
height equal to the greatest glyph height; it is zero-sized for empty text or an
empty glyph set; and for the text `AB ` with the single glyph `a` of width 10 and
height 5 it is 10 + spacing wide and 5 high. -/
theorem textBox_layout (lower : Char → String) (letters : GlyphSet) (text : String)
    (spacing : Int) :
    textBox lower letters text spacing = layoutBox lower letters text spacing ∧
      textBox lower letters "" spacing = (0, 0) ∧
      textBox lower [] text spacing = (0, 0) ∧
      (∀ data : List Pixel,
        textBox asciiLower [("a", { width := 10, height := 5, data := data })] "AB " spacing =
          (10 + spacing, 5)) ∧
      ∀ (layer : Layer) (x y : Int), layer.type = LayerType.text →
        (isPointInLayer lower letters x y layer = true ↔
          layer.x ≤ x ∧
            x ≤ layer.x +
              (layoutBox lower letters (layer.text.getD "") (layer.spacing.getD 0)).1 ∧
            layer.y ≤ y ∧
            y ≤ layer.y +
              (layoutBox lower letters (layer.text.getD "") (layer.spacing.getD 0)).2) := by
  refine ⟨textBox_eq_layoutBox lower letters text spacing, rfl, ?_, ?_, ?_⟩
  · rw [textBox_eq_layoutBox]
    have hg : glyphsOf lower [] text = [] := by
      unfold glyphsOf
      rw [List.filterMap_eq_nil_iff]
      intro c _
      rfl
    simp [layoutBox, hg]
  · intro data
    have h : textBox asciiLower [("a", { width := 10, height := 5, data := data })] "AB "
        spacing = (0 + (((10 : ℕ) : ℤ) + spacing), max 0 ((5 : ℕ) : ℤ)) := rfl
    rw [h]
    simp
  · intro layer x y ht
    rw [← textBox_eq_layoutBox]
    cases hd : layer.data <;> simp [isPointInLayer, ht, hd, and_assoc]

/-- With spacing 2 the box of the text `AB ` over the single glyph `a` is 12 wide
and 5 high. -/
theorem textBox_layout_witness :
    textBox asciiLower [("a", sampleGlyph)] "AB " 2 = (10 + 2, 5) :=
  (textBox_layout asciiLower [] "" 2).2.2.2.1
    (List.replicate 50 { r := 255, g := 255, b := 255, a := 255 })

/-! ## Uploading a custom layer -/

theorem foldl_max_bounds (zs : List Int) :
    ∀ a : Int, a ≤ zs.foldl max a ∧ (∀ z ∈ zs, z ≤ zs.foldl max a) ∧
      (zs.foldl max a = a ∨ zs.foldl max a ∈ zs) := by
  induction zs with
  | nil =>
    intro a
    simp
  | cons b bs ih =>
    intro a
    obtain ⟨h1, h2, h3⟩ := ih (max a b)
    rw [List.foldl_cons]
    refine ⟨le_trans (le_max_left a b) h1, ?_, ?_⟩
    · intro z hz
      rcases List.mem_cons.mp hz with rfl | hz'
      · exact le_trans (le_max_right a z) h1
      · exact h2 z hz'
    · rcases h3 with h | h
      · rcases max_choice a b with hm | hm
        · left
          rw [h, hm]
        · right
          rw [h, hm]
          exact List.mem_cons_self _ _
      · right
        exact List.mem_cons_of_mem _ h

theorem orderedInsert_append_last (r : Layer → Layer → Prop) [DecidableRel r] (a n : Layer)
    (han : r a n) (s : List Layer) :
    List.orderedInsert r a (s ++ [n]) = List.orderedInsert r a s ++ [n] := by
  induction s with
  | nil => simp [List.orderedInsert, han]
  | cons b bs ih =>
    by_cases hab : r a b
    · simp [List.orderedInsert, hab]
    · simp [List.orderedInsert, hab, ih]

theorem insertionSort_append_last (r : Layer → Layer → Prop) [DecidableRel r] (n : Layer)
    (layers : List Layer) (h : ∀ l ∈ layers, r l n) :
    List.insertionSort r (layers ++ [n]) = List.insertionSort r layers ++ [n] := by
  induction layers with
  | nil => simp
  | cons a as ih =>
    have ha : r a n := h a (List.mem_cons_self _ _)
    have has : ∀ l ∈ as, r l n := fun l hl => h l (List.mem_cons_of_mem _ hl)
    have hstep : List.insertionSort r (a :: as ++ [n]) =
        List.orderedInsert r a (List.insertionSort r (as ++ [n])) := rfl
    have hcons : List.insertionSort r (a :: as) =
        List.orderedInsert r a (List.insertionSort r as) := rfl
    rw [hstep, ih has, hcons]
    exact orderedInsert_append_last r a n ha _

/-- C13, as stated, fails.  When every existing layer has a negative z (here -5,
-4 and -3) the uploaded layer gets z = 1, not the greatest existing z plus 1;
and when the banner's z input was 2 ^ 53 the uploaded layer gets that same z,
`maxZ + 1` being a double addition, so its z is not strictly greater. -/
theorem handleCustomLayer_z_floor :
    (sampleSunk.map Layer.z = [-5, -4, -3] ∧
        (handleCustomLayer sampleSunk 1762300800000 "logo" sampleImage).getLast?.map Layer.z =
          some 1) ∧
      (handleCustomLayer (updateBannerZ addDefaultLayers 9007199254740992) 1762300800000 "logo"
          sampleImage).map Layer.z =
        [1, 3, 9007199254740992, 9007199254740992] := by
  decide

/-- C13, amended: when every existing z is below 2 ^ 53, `handleCustomLayer`
appends one layer and leaves the existing ones as they are; the new layer's z is
max(greatest existing z, 0) + 1, which is the greatest existing z plus 1 as soon
as that z is not negative; it is strictly greater than every existing z, so the
new layer is the last one in the ascending-z order of `render` and its raster is
drawn last. -/
theorem handleCustomLayer_top (lower : Char → String) (letters : GlyphSet)
    (layers : List Layer) (now : Nat) (name : String) (img : Image)
    (hb : ∀ l ∈ layers, l.z < 9007199254740992) :
    ∃ newLayer : Layer,
      handleCustomLayer layers now name img = layers ++ [newLayer] ∧
        newLayer.id = now ∧ newLayer.type = LayerType.custom ∧ newLayer.data = some img ∧
        (∀ l ∈ layers, l.z < newLayer.z) ∧
        (∀ m ∈ layers, (∀ l ∈ layers, l.z ≤ m.z) → newLayer.z = max m.z 0 + 1) ∧
        (∀ m ∈ layers, (∀ l ∈ layers, l.z ≤ m.z) → 0 ≤ m.z → newLayer.z = m.z + 1) ∧
        (layers = [] → newLayer.z = 1) ∧
        renderOrder (handleCustomLayer layers now name img) = renderOrder layers ++ [newLayer] ∧
        (render lower letters (handleCustomLayer layers now name img)).2 =
          (render lower letters layers).2 ++ [{ image := img, x := 0, y := 0 }] := by
  obtain ⟨h0, hall, hmem⟩ := foldl_max_bounds (layers.map (fun l => l.z)) 0
  have hle : (layers.map (fun l => l.z)).foldl max 0 < 9007199254740992 := by
    rcases hmem with h | h
    · rw [h]
      decide
    · obtain ⟨l, hl, hlz⟩ := List.mem_map.mp h
      rw [← hlz]
      exact hb l hl
  have hexact : toDouble ((layers.map (fun l => l.z)).foldl max 0 + 1) =
      (layers.map (fun l => l.z)).foldl max 0 + 1 := toDouble_exact (by omega) (by omega)
  have hdef : handleCustomLayer layers now name img =
      layers ++
        [{ id := now, name := name, type := LayerType.custom, visible := true, data := some img,
           x := 0, y := 0, z := (layers.map (fun l => l.z)).foldl max 0 + 1,
           color := Color.undefined, text := none, spacing := none }] := by
    unfold handleCustomLayer
    simp only [hexact]
  have hlt : ∀ l ∈ layers, l.z < (layers.map (fun l => l.z)).foldl max 0 + 1 := by
    intro l hl
    have := hall l.z (List.mem_map_of_mem (fun l => l.z) hl)
    omega
  have hmax : ∀ m ∈ layers, (∀ l ∈ layers, l.z ≤ m.z) →
      (layers.map (fun l => l.z)).foldl max 0 = max m.z 0 := by
    intro m hm hge
    apply le_antisymm
    · rcases hmem with h | h
      · rw [h]
        exact le_max_right _ _
      · obtain ⟨l, hl, hlz⟩ := List.mem_map.mp h
        rw [← hlz]
        exact le_trans (hge l hl) (le_max_left _ _)
    · exact max_le (hall m.z (List.mem_map_of_mem (fun l => l.z) hm)) h0
  have hsort : renderOrder (handleCustomLayer layers now name img) =
      renderOrder layers ++
        [{ id := now, name := name, type := LayerType.custom, visible := true, data := some img,
           x := 0, y := 0, z := (layers.map (fun l => l.z)).foldl max 0 + 1,
           color := Color.undefined, text := none, spacing := none }] := by
    rw [hdef]
    unfold renderOrder jsSort
    apply insertionSort_append_last
    intro l hl
    have := hlt l hl
    show l.z - ((layers.map (fun l => l.z)).foldl max 0 + 1) ≤ 0
    omega
  refine ⟨_, hdef, rfl, rfl, rfl, hlt, ?_, ?_, ?_, hsort, ?_⟩
  · intro m hm hge
    show (layers.map (fun l => l.z)).foldl max 0 + 1 = max m.z 0 + 1
    rw [hmax m hm hge]
  · intro m hm hge hnn
    show (layers.map (fun l => l.z)).foldl max 0 + 1 = m.z + 1
    rw [hmax m hm hge, max_eq_left hnn]
  · intro hnil
    subst hnil
    rfl
  · simp only [render]
    rw [hsort, List.flatMap_append]
    simp [drawLayer]

/-- On the sample base (z = 1) under the sample banner (z = 2) the upload gets
z = 3 and is drawn last. -/
theorem handleCustomLayer_top_witness :
    ∃ newLayer : Layer,
      handleCustomLayer [sampleBase, sampleBanner] 1762300800000 "logo" sampleImage =
          [sampleBase, sampleBanner] ++ [newLayer] ∧
        newLayer.z = 3 := by
  obtain ⟨newLayer, happ, _, _, _, _, _, hz, _⟩ :=
    handleCustomLayer_top asciiLower [] [sampleBase, sampleBanner] 1762300800000 "logo"
      sampleImage (by decide)
  exact ⟨newLayer, happ, hz sampleBanner (by decide) (by decide) (by decide)⟩

/-! ## The render pass -/

theorem flatMap_filter_visible (f : Layer → List Draw)
    (hf : ∀ l : Layer, l.visible = false → f l = []) (layers : List Layer) :
    layers.flatMap f = (layers.filter (fun l => l.visible)).flatMap f := by
  induction layers with
  | nil => rfl
  | cons a as ih =>
    cases hv : a.visible with
    | true => simp [List.filter_cons, hv, ih]
    | false => simp [List.filter_cons, hv, hf a hv, ih]

theorem drawLayer_hidden (lower : Char → String) (letters : GlyphSet) (layer : Layer)
    (h : layer.visible = false) : drawLayer lower letters layer = [] := by
  simp [drawLayer, h]

/-- C14: `render` goes through the layers in non-decreasing z, each layer once,
two layers of equal z in their stored relative order; it draws nothing for a
layer whose `visible` is false; and it leaves `state.layers` as it was, the sort
being applied to a copy. -/
theorem render_ascending (lower : Char → String) (letters : GlyphSet) (layers : List Layer) :
    (render lower letters layers).1 = layers ∧
      (render lower letters layers).2 = (renderOrder layers).flatMap (drawLayer lower letters) ∧
      (render lower letters layers).2 =
        ((renderOrder layers).filter (fun l => l.visible)).flatMap (drawLayer lower letters) ∧
      (renderOrder layers).Perm layers ∧
      (renderOrder layers).Pairwise (fun a b => a.z ≤ b.z) ∧
      (∀ a b : Layer, a.z ≤ b.z → List.Sublist [a, b] layers →
        List.Sublist [a, b] (renderOrder layers)) ∧
      ∀ layer : Layer, layer.visible = false → drawLayer lower letters layer = [] := by
  refine ⟨rfl, rfl, ?_, renderOrder_perm layers, renderOrder_pairwise layers, ?_,
    drawLayer_hidden lower letters⟩
  · exact flatMap_filter_visible _ (drawLayer_hidden lower letters) _
  · intro a b hab hsub
    have hr : (fun x y : Layer => x.z - y.z ≤ 0) a b := by
      show a.z - b.z ≤ 0
      omega
    exact List.pair_sublist_insertionSort hr hsub

/-- The banner and the lifted base share z = 2 and the banner is stored first; it
is still before the lifted base in the order `render` goes through, and the
hidden layer draws nothing. -/
theorem render_ascending_witness :
    List.Sublist [sampleBanner, sampleLifted] (renderOrder sampleTied) ∧
      drawLayer asciiLower [] sampleHidden = [] :=
  ⟨(render_ascending asciiLower [] sampleTied).2.2.2.2.2.1 sampleBanner sampleLifted
      (by decide) (by decide),
    (render_ascending asciiLower [] sampleTied).2.2.2.2.2.2 sampleHidden rfl⟩

end BannerCompile
